import Mathlib

/-!
# Verification of the DistrictBuilder boundary-editing and versioning engine

Shallow embedding of `src/django/publicmapping/redistricting/models.py`
(the redistricting data model: plans, district snapshots, geometry
normalisation, incremental statistics, and the `add_geounits` edit
operation), together with proofs settling the frozen claims about it.

Conventions of the embedding:
* Django model rows become Lean structures; the database tables of one plan
  become explicit lists threaded through the operations as a `State`.
* GEOS geometries are modelled by an inductive `Geometry` carrying the
  geometry type, the emptiness flag, the spatial reference id and the list
  of member geometries (for collections).  Geometry-engine operations
  (union, difference, intersection, simplify, spatial predicates) are
  external capabilities and are passed in as function parameters that may
  fail (`Except Unit Geometry` models a raised `GEOSException`).
* Python truthiness of a GEOS geometry object follows Django's GEOS
  bindings: every class involved defines `__len__`, so `bool(geom)` is
  `len(geom) > 0`.  `Polygon.__len__` is `1 + num_interior_rings` (always
  positive), `Point.__len__` is `0` when empty, `LineString.__len__` is the
  number of points, and collections (`MultiPolygon`, `GeometryCollection`)
  return the number of members.  Hence a polygon is always truthy and any
  other geometry is truthy exactly when it is nonempty; `None` is falsy.
* Fallible Python code returns `Except String _`; the error string names
  the Python exception that the source would raise.
-/

set_option autoImplicit false

namespace Redistricting

/-- The GEOS geometry types that occur in the source. -/
inductive GeomType where
  | point
  | linestring
  | polygon
  | multipolygon
  | geometrycollection
deriving DecidableEq, Repr

/-- A GEOS geometry value: type tag, emptiness flag, spatial reference id,
and member geometries (nonempty only for collection types). -/
inductive Geometry where
  | mk (gtype : GeomType) (isEmpty : Bool) (srid : Int) (members : List Geometry)

/-- The geometry type (`geom.geom_type`). -/
def Geometry.gtype : Geometry → GeomType
  | .mk t _ _ _ => t

/-- The emptiness flag (`geom.empty`). -/
def Geometry.isEmpty : Geometry → Bool
  | .mk _ e _ _ => e

/-- The spatial reference id (`geom.srid`). -/
def Geometry.srid : Geometry → Int
  | .mk _ _ s _ => s

/-- The member geometries of a collection (`for g in geom`). -/
def Geometry.members : Geometry → List Geometry
  | .mk _ _ _ m => m

/-- Python truthiness of a GEOS geometry object (see the module comment):
a polygon always has `len = 1 + num_interior_rings > 0`; every other type
has `len > 0` exactly when the geometry is nonempty. -/
def Geometry.truthy (g : Geometry) : Bool :=
  g.gtype = .polygon || !g.isEmpty

/-- Python truthiness of an optional geometry (`None` is falsy). -/
def geomTruthy : Option Geometry → Bool
  | none => false
  | some g => g.truthy

/-- `empty_geom(srid)` (models.py:843): `POINT(0 0)` intersected with
`POINT(1 1)`.  In GEOS the intersection of two distinct points is the empty
geometry collection, re-tagged with the given srid. -/
def empty_geom (srid : Int) : Geometry :=
  .mk .geometrycollection true srid []

/-- The Django `MultiPolygon(geom)` constructor: a one-member multipolygon
wrapping `geom`, inheriting its srid and emptiness. -/
def MultiPolygonOf (g : Geometry) : Geometry :=
  .mk .multipolygon g.isEmpty g.srid [g]

/-- `enforce_multi(geom)` (models.py:849) on a geometry object that is not
`None`.  The source tests `if geom:` (truthiness), then dispatches on
`geom.geom_type`. -/
def enforce_multi1 (g : Geometry) : Geometry :=
  if g.truthy then
    if g.gtype = .multipolygon then g
    else if g.gtype = .polygon then MultiPolygonOf g
    else empty_geom g.srid
  else g

/-- `enforce_multi(geom)` (models.py:849) including the `None` case:
`if geom:` is false for `None`, and the final `else` returns the argument
unchanged. -/
def enforce_multi (geom : Option Geometry) : Option Geometry :=
  match geom with
  | none => none
  | some g => some (enforce_multi1 g)

example : enforce_multi (some (.mk .polygon false 3785 [])) =
    some (.mk .multipolygon false 3785 [.mk .polygon false 3785 []]) := rfl
example : enforce_multi (some (.mk .point false 3785 [])) =
    some (empty_geom 3785) := rfl
example : enforce_multi (some (.mk .point true 3785 [])) =
    some (.mk .point true 3785 []) := rfl

/-- A row of the `redistricting_district` table (models.py:588): one
version-stamped snapshot of a district.  `id` is the database primary key
(`0` encodes the Python `None` of an unsaved instance); `district_id` is
the plan-stable district identifier (`0` encodes a falsy Python value,
i.e. `None` or `0`; the Django field default is `1`); `plan` is the
foreign key to the owning plan (`none` = not attached). -/
structure District where
  id : Nat := 0
  district_id : Nat := 1
  name : String := ""
  plan : Option Nat := none
  geom : Option Geometry := none
  simple : Option Geometry := none
  version : Nat := 0

/-- `District.sortVer` (models.py:610): the key used to sort a list of
districts first by `district_id`, then by version number. -/
def District.sortVer (d : District) : Nat :=
  d.district_id * 10000 + d.version

/-- The ordering relation `key=lambda d: d.sortVer()` used by
`get_districts_at_version`. -/
def sortVerLE (a b : District) : Prop :=
  a.sortVer ≤ b.sortVer

instance : DecidableRel sortVerLE := fun _ _ => Nat.decLe _ _

instance : IsTotal District sortVerLE :=
  ⟨fun a b => Nat.le_total a.sortVer b.sortVer⟩

instance : IsTrans District sortVerLE :=
  ⟨fun _ _ _ hab hbc => Nat.le_trans hab hbc⟩

/-- Assignment `dvers[district_id] = district` on a Python dict, modelled
as an association list in first-insertion key order (existing keys are
overwritten in place, new keys are appended). -/
def upsert (m : List (Nat × District)) (k : Nat) (v : District) :
    List (Nat × District) :=
  match m with
  | [] => [(k, v)]
  | (k', v') :: rest =>
      if k' = k then (k, v) :: rest else (k', v') :: upsert rest k v

/-- `Plan.get_districts_at_version` (models.py:559): sort all of the
plan's district snapshots by `sortVer()` (Python's `sorted` is stable;
modelled by the stable `insertionSort`), then keep, per `district_id`, the
last-seen snapshot whose version is `≤ version`, and return the collected
values (`dvers.itervalues()`). -/
def get_districts_at_version (district_set : List District) (version : Nat) :
    List District :=
  let districts := district_set.insertionSort sortVerLE
  let dvers := districts.foldl
    (fun m d => if d.version > version then m else upsert m d.district_id d) []
  dvers.map Prod.snd

/-! ### Properties of the version-resolution dictionary -/

/-- Key lookup in the association list modelling the Python dict. -/
def lookupKey : List (Nat × District) → Nat → Option District
  | [], _ => none
  | (k, v) :: rest, k' => if k = k' then some v else lookupKey rest k'

theorem lookupKey_upsert (m : List (Nat × District)) (k : Nat) (v : District)
    (k' : Nat) :
    lookupKey (upsert m k v) k' = if k = k' then some v else lookupKey m k' := by
  induction m with
  | nil => simp [upsert, lookupKey]
  | cons hd tl ih =>
      obtain ⟨k₀, v₀⟩ := hd
      simp only [upsert]
      split
      next h0 =>
        subst h0
        by_cases h1 : k₀ = k' <;> simp [lookupKey, h1]
      next h0 =>
        by_cases h1 : k₀ = k'
        · have h2 : ¬k = k' := fun h => h0 (h1.trans h.symm)
          simp [lookupKey, h1, h2]
        · simp [lookupKey, h1, ih]

theorem mem_keys_upsert (m : List (Nat × District)) (k : Nat) (v : District)
    (a : Nat) :
    a ∈ (upsert m k v).map Prod.fst ↔ a ∈ m.map Prod.fst ∨ a = k := by
  induction m with
  | nil => simp [upsert]
  | cons hd tl ih =>
      obtain ⟨k₀, v₀⟩ := hd
      simp only [upsert]
      split
      next h0 =>
        subst h0
        simp only [List.map_cons, List.mem_cons]
        tauto
      next h0 =>
        simp only [List.map_cons, List.mem_cons, ih]
        tauto

theorem nodupKeys_upsert (m : List (Nat × District)) (k : Nat) (v : District)
    (h : (m.map Prod.fst).Nodup) : ((upsert m k v).map Prod.fst).Nodup := by
  induction m with
  | nil => simp [upsert]
  | cons hd tl ih =>
      obtain ⟨k₀, v₀⟩ := hd
      simp only [List.map_cons, List.nodup_cons] at h
      simp only [upsert]
      split
      next h0 =>
        subst h0
        simp only [List.map_cons, List.nodup_cons]
        exact h
      next h0 =>
        simp only [List.map_cons, List.nodup_cons]
        refine ⟨?_, ih h.2⟩
        rw [mem_keys_upsert]
        rintro (hm | rfl)
        · exact h.1 hm
        · exact h0 rfl

theorem lookupKey_mem {m : List (Nat × District)} {k : Nat} {d : District}
    (h : lookupKey m k = some d) : (k, d) ∈ m := by
  induction m with
  | nil => simp [lookupKey] at h
  | cons hd tl ih =>
      obtain ⟨k₀, v₀⟩ := hd
      by_cases h0 : k₀ = k
      · subst h0
        simp [lookupKey] at h
        subst h
        exact List.mem_cons_self _ _
      · simp only [lookupKey, if_neg h0] at h
        exact List.mem_cons_of_mem _ (ih h)

theorem mem_lookupKey {m : List (Nat × District)} {k : Nat} {d : District}
    (hnd : (m.map Prod.fst).Nodup) (h : (k, d) ∈ m) :
    lookupKey m k = some d := by
  induction m with
  | nil => simp at h
  | cons hd tl ih =>
      obtain ⟨k₀, v₀⟩ := hd
      simp only [List.map_cons, List.nodup_cons] at hnd
      rcases List.mem_cons.mp h with h | h
      · injection h with h1 h2
        subst h1; subst h2
        simp [lookupKey]
      · have hk : k₀ ≠ k := by
          rintro rfl
          exact hnd.1 (List.mem_map.mpr ⟨(k₀, d), h, rfl⟩)
        simp only [lookupKey, if_neg hk]
        exact ih hnd.2 h

/-- The last snapshot in the list (searching from the back) with the given
`district_id` and version `≤ V`: the value the dict ends up holding. -/
def lastPick (did V : Nat) : List District → Option District
  | [] => none
  | d :: rest =>
      match lastPick did V rest with
      | some d' => some d'
      | none => if d.district_id = did ∧ d.version ≤ V then some d else none

theorem lastPick_eq_some {did V : Nat} {l : List District} {d : District}
    (h : lastPick did V l = some d) :
    d ∈ l ∧ d.district_id = did ∧ d.version ≤ V := by
  induction l with
  | nil => simp [lastPick] at h
  | cons hd tl ih =>
      simp only [lastPick] at h
      cases htl : lastPick did V tl with
      | some d' =>
          rw [htl] at h
          obtain rfl : d' = d := by simpa using h
          obtain ⟨h1, h2⟩ := ih htl
          exact ⟨List.mem_cons_of_mem _ h1, h2⟩
      | none =>
          rw [htl] at h
          by_cases hp : hd.district_id = did ∧ hd.version ≤ V
          · rw [if_pos hp] at h
            obtain rfl : hd = d := by simpa using h
            exact ⟨List.mem_cons_self _ _, hp⟩
          · rw [if_neg hp] at h
            simp at h

theorem lastPick_eq_none {did V : Nat} {l : List District}
    (h : lastPick did V l = none) :
    ∀ x ∈ l, ¬(x.district_id = did ∧ x.version ≤ V) := by
  induction l with
  | nil => simp
  | cons hd tl ih =>
      simp only [lastPick] at h
      cases htl : lastPick did V tl with
      | some d' => rw [htl] at h; simp at h
      | none =>
          rw [htl] at h
          intro x hx
          rcases List.mem_cons.mp hx with rfl | hx
          · intro hp
            rw [if_pos hp] at h
            simp at h
          · exact ih htl x hx

theorem lastPick_isSome {did V : Nat} {l : List District} {d : District}
    (hd : d ∈ l) (h1 : d.district_id = did) (h2 : d.version ≤ V) :
    (lastPick did V l).isSome := by
  cases hl : lastPick did V l with
  | some _ => simp
  | none => exact absurd ⟨h1, h2⟩ (lastPick_eq_none hl d hd)

theorem lastPick_max {did V : Nat} {l : List District} {d : District}
    (hs : l.Sorted sortVerLE) (h : lastPick did V l = some d) :
    ∀ x ∈ l, x.district_id = did → x.version ≤ V → x.version ≤ d.version := by
  induction l with
  | nil => simp
  | cons hd tl ih =>
      rw [List.sorted_cons] at hs
      simp only [lastPick] at h
      intro x hx hx1 hx2
      cases htl : lastPick did V tl with
      | some d' =>
          rw [htl] at h
          have hd'd : d' = d := by simpa using h
          rw [hd'd] at htl
          rcases List.mem_cons.mp hx with rfl | hx
          · obtain ⟨hmem, hdid, _⟩ := lastPick_eq_some htl
            have hle : sortVerLE x d := hs.1 d hmem
            simp only [sortVerLE, District.sortVer] at hle
            rw [hx1, hdid] at hle
            omega
          · exact ih hs.2 htl x hx hx1 hx2
      | none =>
          rw [htl] at h
          rcases List.mem_cons.mp hx with rfl | hx
          · by_cases hp : x.district_id = did ∧ x.version ≤ V
            · rw [if_pos hp] at h
              obtain rfl : x = d := by simpa using h
              exact Nat.le_refl _
            · exact absurd ⟨hx1, hx2⟩ hp
          · exact absurd ⟨hx1, hx2⟩ (lastPick_eq_none htl x hx)

/-- The dict built by the fold holds, at key `did`, the last qualifying
snapshot of the (sorted) input list, falling back to the initial dict. -/
theorem lookupKey_foldl (V : Nat) (l : List District)
    (m : List (Nat × District)) (did : Nat) :
    lookupKey
      (l.foldl (fun m d => if d.version > V then m else upsert m d.district_id d) m)
      did =
    match lastPick did V l with
    | some d => some d
    | none => lookupKey m did := by
  induction l generalizing m with
  | nil => simp [lastPick]
  | cons hd tl ih =>
      simp only [List.foldl_cons, ih, lastPick]
      cases htl : lastPick did V tl with
      | some d' => simp
      | none =>
          simp only []
          by_cases hv : hd.version > V
          · have hnp : ¬(hd.district_id = did ∧ hd.version ≤ V) := by omega
            simp [hv, hnp]
          · simp only [if_neg hv, lookupKey_upsert]
            by_cases hk : hd.district_id = did
            · have hc : hd.district_id = did ∧ hd.version ≤ V := ⟨hk, by omega⟩
              simp [hk, hc]
            · have hnc : ¬(hd.district_id = did ∧ hd.version ≤ V) :=
                fun hp => hk hp.1
              simp [hk, hnc]

theorem nodupKeys_foldl (V : Nat) (l : List District)
    (m : List (Nat × District)) (h : (m.map Prod.fst).Nodup) :
    (((l.foldl (fun m d => if d.version > V then m
        else upsert m d.district_id d) m)).map Prod.fst).Nodup := by
  induction l generalizing m with
  | nil => exact h
  | cons hd tl ih =>
      simp only [List.foldl_cons]
      by_cases hv : hd.version > V
      · rw [if_pos hv]; exact ih _ h
      · rw [if_neg hv]; exact ih _ (nodupKeys_upsert _ _ _ h)

theorem mem_map_snd {m : List (Nat × District)} {d : District}
    (hnd : (m.map Prod.fst).Nodup) :
    d ∈ m.map Prod.snd ↔ ∃ k, lookupKey m k = some d := by
  constructor
  · intro h
    obtain ⟨⟨k, v⟩, hmem, hv⟩ := List.mem_map.mp h
    obtain rfl : v = d := hv
    exact ⟨k, mem_lookupKey hnd hmem⟩
  · rintro ⟨k, hk⟩
    exact List.mem_map.mpr ⟨(k, d), lookupKey_mem hk, rfl⟩

/-- Membership in `get_districts_at_version` is exactly "being the last
qualifying snapshot for one's own `district_id` in the sorted list". -/
theorem mem_get_districts_iff (ds : List District) (V : Nat) (d : District) :
    d ∈ get_districts_at_version ds V ↔
      lastPick d.district_id V (ds.insertionSort sortVerLE) = some d := by
  have hnd : (((ds.insertionSort sortVerLE).foldl
      (fun m d => if d.version > V then m else upsert m d.district_id d)
      []).map Prod.fst).Nodup := nodupKeys_foldl V _ [] (by simp)
  show d ∈ ((ds.insertionSort sortVerLE).foldl
      (fun m d => if d.version > V then m else upsert m d.district_id d)
      []).map Prod.snd ↔ _
  rw [mem_map_snd hnd]
  constructor
  · rintro ⟨k, hk⟩
    rw [lookupKey_foldl] at hk
    cases hlp : lastPick k V (ds.insertionSort sortVerLE) with
    | none => rw [hlp] at hk; simp [lookupKey] at hk
    | some d0 =>
        rw [hlp] at hk
        obtain rfl : d0 = d := by simpa using hk
        obtain ⟨-, hdid, -⟩ := lastPick_eq_some hlp
        rwa [hdid]
  · intro h
    refine ⟨d.district_id, ?_⟩
    rw [lookupKey_foldl, h]

theorem get_districts_mem_spec (ds : List District) (V : Nat) (d : District)
    (hd : d ∈ get_districts_at_version ds V) :
    d ∈ ds ∧ d.version ≤ V ∧
      ∀ d' ∈ ds, d'.district_id = d.district_id → d'.version ≤ V →
        d'.version ≤ d.version := by
  rw [mem_get_districts_iff] at hd
  obtain ⟨hmem, -, hver⟩ := lastPick_eq_some hd
  have hperm := List.perm_insertionSort sortVerLE ds
  refine ⟨hperm.mem_iff.mp hmem, hver, ?_⟩
  intro d' hd' h1 h2
  exact lastPick_max (List.sorted_insertionSort sortVerLE ds) hd d'
    (hperm.mem_iff.mpr hd') h1 h2

theorem get_districts_exists (ds : List District) (V did : Nat)
    (h : ∃ d ∈ ds, d.district_id = did ∧ d.version ≤ V) :
    ∃ e, e ∈ get_districts_at_version ds V ∧ e.district_id = did := by
  obtain ⟨d, hd, h1, h2⟩ := h
  have hmem : d ∈ ds.insertionSort sortVerLE :=
    (List.perm_insertionSort sortVerLE ds).mem_iff.mpr hd
  obtain ⟨e, he⟩ := Option.isSome_iff_exists.mp (lastPick_isSome hmem h1 h2)
  obtain ⟨-, hedid, -⟩ := lastPick_eq_some he
  refine ⟨e, ?_, hedid⟩
  rw [mem_get_districts_iff, hedid]
  exact he

/-- The symmetric "snapshot distinctness" relation: two snapshots of the
same district never share a version number (the data-model invariant). -/
def distinctVer (a b : District) : Prop :=
  a.district_id = b.district_id → a.version ≠ b.version

theorem distinctVer_symm : Symmetric distinctVer :=
  fun _ _ hab h hv => hab h.symm hv.symm

/-- Under the snapshot-distinctness invariant, membership in
`get_districts_at_version` has an order-free characterisation. -/
theorem mem_get_districts_char (ds : List District) (V : Nat) (d : District)
    (hinv : ds.Pairwise distinctVer) :
    d ∈ get_districts_at_version ds V ↔
      d ∈ ds ∧ d.version ≤ V ∧
        ∀ d' ∈ ds, d'.district_id = d.district_id → d'.version ≤ V →
          d'.version ≤ d.version := by
  constructor
  · exact get_districts_mem_spec ds V d
  · rintro ⟨hd, hv, hmax⟩
    obtain ⟨e, he, hedid⟩ :=
      get_districts_exists ds V d.district_id ⟨d, hd, rfl, hv⟩
    obtain ⟨he1, he2, he3⟩ := get_districts_mem_spec ds V e he
    have h1 : e.version ≤ d.version := hmax e he1 hedid he2
    have h2 : d.version ≤ e.version := he3 d hd hedid.symm hv
    have hed : e = d := by
      by_contra hne
      exact hinv.forall distinctVer_symm he1 hd hne hedid (by omega)
    rwa [← hed]

/-- C1: for every plan whose snapshots satisfy the data-model invariant
(snapshots of one `district_id` have pairwise distinct versions) and every
version `V`, `get_districts_at_version` returns exactly one snapshot per
`district_id` that has any snapshot with version ≤ `V`; the returned
snapshot's version is the maximum snapshot version ≤ `V` for that
`district_id`; and the result (as a set of snapshots) is the same
regardless of the order in which the snapshots are stored. -/
theorem C1_latest_resolution (ds : List District) (V : Nat)
    (hinv : ds.Pairwise distinctVer) :
    (∀ did : Nat, (∃ d ∈ ds, d.district_id = did ∧ d.version ≤ V) →
        ∃! d, d ∈ get_districts_at_version ds V ∧ d.district_id = did) ∧
    (∀ d ∈ get_districts_at_version ds V,
        d ∈ ds ∧ d.version ≤ V ∧
          ∀ d' ∈ ds, d'.district_id = d.district_id → d'.version ≤ V →
            d'.version ≤ d.version) ∧
    (∀ ds' : List District, ds.Perm ds' →
        ∀ d, d ∈ get_districts_at_version ds V ↔
          d ∈ get_districts_at_version ds' V) := by
  refine ⟨?_, fun d hd => get_districts_mem_spec ds V d hd, ?_⟩
  · intro did hex
    obtain ⟨e, he, hedid⟩ := get_districts_exists ds V did hex
    refine ⟨e, ⟨he, hedid⟩, ?_⟩
    rintro y ⟨hy, hydid⟩
    rw [mem_get_districts_iff, hydid] at hy
    rw [mem_get_districts_iff, hedid] at he
    exact Option.some.inj (hy.symm.trans he)
  · intro ds' hp d
    have hinv' : ds'.Pairwise distinctVer :=
      (hp.pairwise_iff fun {_ _} h => distinctVer_symm h).mp hinv
    rw [mem_get_districts_char ds V d hinv,
      mem_get_districts_char ds' V d hinv']
    constructor
    · rintro ⟨h1, h2, h3⟩
      exact ⟨hp.mem_iff.mp h1, h2, fun d' hd' => h3 d' (hp.mem_iff.mpr hd')⟩
    · rintro ⟨h1, h2, h3⟩
      exact ⟨hp.mem_iff.mpr h1, h2, fun d' hd' => h3 d' (hp.mem_iff.mp hd')⟩

/-- A concrete three-snapshot plan used to witness C1: district 1 has
snapshots at versions 0 and 1, district 2 only at version 0. -/
def dsC1 : List District :=
  [{ district_id := 1, version := 0 }, { district_id := 1, version := 1 },
   { district_id := 2, version := 0 }]

theorem C1_latest_resolution_witness :
    (∀ did : Nat, (∃ d ∈ dsC1, d.district_id = did ∧ d.version ≤ 0) →
        ∃! d, d ∈ get_districts_at_version dsC1 0 ∧ d.district_id = did) ∧
    (∀ d ∈ get_districts_at_version dsC1 0,
        d ∈ dsC1 ∧ d.version ≤ 0 ∧
          ∀ d' ∈ dsC1, d'.district_id = d.district_id → d'.version ≤ 0 →
            d'.version ≤ d.version) ∧
    (∀ ds' : List District, dsC1.Perm ds' →
        ∀ d, d ∈ get_districts_at_version dsC1 0 ↔
          d ∈ get_districts_at_version ds' 0) :=
  C1_latest_resolution dsC1 0
    (by simp [dsC1, distinctVer, List.pairwise_cons])

/-- C7 counterexample: an empty point is falsy in Django's GEOS bindings
(`Point.__len__` is `0` when empty), so `enforce_multi` hits the final
`else` and returns it unchanged — it is neither a `MultiPolygon` nor a
`Polygon`, yet the result is not the canonical empty geometry. -/
theorem C7_enforce_multi_counterexample :
    enforce_multi (some (Geometry.mk .point true 3785 [])) =
      some (Geometry.mk .point true 3785 []) ∧
    (Geometry.mk .point true 3785 []).gtype ≠ .multipolygon ∧
    (Geometry.mk .point true 3785 []).gtype ≠ .polygon ∧
    enforce_multi (some (Geometry.mk .point true 3785 [])) ≠
      some (empty_geom (Geometry.mk .point true 3785 []).srid) := by
  refine ⟨rfl, by simp [Geometry.gtype], by simp [Geometry.gtype], ?_⟩
  simp [enforce_multi, enforce_multi1, Geometry.truthy, Geometry.gtype,
    Geometry.isEmpty, Geometry.srid, empty_geom]

/-- C7 amended: `enforce_multi` returns a `MultiPolygon` unchanged and
wraps any `Polygon` (polygons are always truthy since
`Polygon.__len__ = 1 + num_interior_rings`); a *nonempty* geometry of any
other type becomes the canonical empty geometry of its srid; but an
*empty* non-polygonal geometry (being falsy) — and an absent (`None`)
geometry — is returned unchanged rather than canonicalised. -/
theorem C7_enforce_multi_amended (g : Geometry) :
    enforce_multi (some g) = some (
      if g.gtype = .multipolygon then g
      else if g.gtype = .polygon then MultiPolygonOf g
      else if g.isEmpty then g
      else empty_geom g.srid) ∧
    enforce_multi none = none := by
  refine ⟨?_, rfl⟩
  unfold enforce_multi enforce_multi1 Geometry.truthy
  rcases g with ⟨t, e, s, m⟩
  cases t <;> cases e <;>
    simp [Geometry.gtype, Geometry.isEmpty, Geometry.srid]

/-- The SQL `Max` aggregate over the versions of a queryset
(`None` when the queryset is empty). -/
def maxVersion (l : List District) : Option Nat :=
  l.foldl (fun m x => some (match m with
    | none => x.version
    | some v => max v x.version)) none

/-- `District.is_latest_version` (models.py:615).  When the district is
attached to a plan, compare its version with the `Max` of the versions of
the plan's snapshots sharing its `district_id` (a Python `int == None`
comparison is `False` when there are no such rows).  When it is not
attached, the source executes `return true` — but Python has no name
`true` (booleans are `True`), so this raises a `NameError`. -/
def is_latest_version (d : District) (all_districts : List District) :
    Except String Bool :=
  match d.plan with
  | some p =>
      let qset := (all_districts.filter (fun x => decide (x.plan = some p))).filter
        (fun x => decide (x.district_id = d.district_id))
      .ok (decide (some d.version = maxVersion qset))
  | none => .error "NameError: name 'true' is not defined"

/-- C8: evaluating `is_latest_version` on a district not attached to any
plan.  The source's docstring says such a district "is always considered
the latest version", but the code executes `return true`, which raises
`NameError: name 'true' is not defined` instead of returning `True`. -/
theorem C8_is_latest_version_unattached_bug :
    is_latest_version { name := "floating", plan := none } [] =
      .error "NameError: name 'true' is not defined" ∧
    ∀ b : Bool,
      is_latest_version { name := "floating", plan := none } [] ≠ .ok b := by
  exact ⟨rfl, fun b => by simp [is_latest_version]⟩

/-! ### Reference data, statistics, and the database state -/

/-- A row of `redistricting_characteristic` (models.py:396): the value of
one Subject for one Geounit.  The `Decimal` field `number` is modelled as
an integer (exact arithmetic). -/
structure Characteristic where
  subject : Nat
  geounit : Nat
  number : Int
deriving DecidableEq, Repr

/-- A row of `redistricting_computedcharacteristic` (models.py:748): the
aggregate of one Subject for one district snapshot, keyed by the
snapshot's database pk. -/
structure CChar where
  subject : Nat
  district : Nat
  number : Int
deriving DecidableEq, Repr

/-- A geounit as returned by `get_mixed_geounits`: only the id and
geometry fields are populated. -/
structure GUnit where
  id : Nat
  geom : Geometry

/-- A full row of `redistricting_geounit` as used by the containment
search: id, geolevel, full geometry, and centroid. -/
structure UnitRec where
  id : Nat
  geolevel : Nat
  geom : Geometry
  center : Geometry

/-- The read-only environment of `add_geounits`: the Subject table (in its
default order), the Characteristic table, and the external geometry-engine
and database capabilities.  Set operations may raise `GEOSException`,
modelled by `Except Unit`; `get_mixed` is the containment search used by
the edit (its calls in `add_geounits` are not guarded by `try`). -/
structure Env where
  subjects : List Nat
  characteristics : List Characteristic
  unionagg : List Nat → Option Geometry
  overlaps : Geometry → Geometry → Bool
  containsG : Geometry → Geometry → Bool
  differenceG : Geometry → Geometry → Except Unit Geometry
  unionG : Geometry → Geometry → Except Unit Geometry
  simplifyG : Geometry → Geometry
  get_mixed : List Nat → Nat → Option Geometry → Bool → Except Unit (List GUnit)

/-- The mutable database state of one plan: the plan row's `version`
field, the district snapshots, the computed characteristics, and the next
fresh database pk. -/
structure State where
  plan_version : Nat
  districts : List District
  computed : List CChar
  next_pk : Nat

/-- `set_district_id` (models.py:775), the `pre_save` signal: when the
instance's `district_id` is falsy (Python `None` or `0`, both encoded as
`0`), assign `Max(district_id) + 1` over the plan's existing districts
(`Max` over no rows is `None`, falsy, giving `1`), then raise a
`ValidationError` when the assigned id exceeds `MAX_DISTRICTS + 1` (the
reserved unassigned district does not count against `MAX_DISTRICTS`).
A truthy `district_id` (including the field default `1`) is untouched. -/
def set_district_id (MAX_DISTRICTS : Nat) (all_districts : List District)
    (district : District) : Except String District :=
  if district.district_id = 0 then
    let max_id := ((all_districts.filter
      (fun r => decide (r.plan = district.plan))).map District.district_id).foldl max 0
    let district := { district with
      district_id := if max_id ≠ 0 then max_id + 1 else 1 }
    if district.district_id > MAX_DISTRICTS + 1 then
      .error "ValidationError: Too many districts already.  Reached Max Districts setting"
    else
      .ok district
  else
    .ok district

/-- `district.save()`: run the `pre_save` signal `set_district_id`
(raising aborts the save with nothing persisted), then insert a new row
with a fresh pk when the instance has none (`id = 0`), or update the
existing row in place.  Returns the new state and the saved instance. -/
def save_district (MAX_DISTRICTS : Nat) (st : State) (d : District) :
    Except String (State × District) :=
  match set_district_id MAX_DISTRICTS st.districts d with
  | .error e => .error e
  | .ok d' =>
      if d'.id = 0 then
        let saved := { d' with id := st.next_pk }
        let st' := { st with
          districts := st.districts ++ [saved]
          next_pk := st.next_pk + 1 }
        .ok (st', saved)
      else
        let ds := st.districts.map (fun r => if r.id = d'.id then d' else r)
        .ok ({ st with districts := ds }, d')

/-- Plan creation: a fresh plan row has `version = 0` (the field default),
and the `post_save` signal `set_geounit_mapping` (models.py:799) creates
and saves the reserved district `District(name="Unassigned", version=0,
plan=plan)` — its `geom` and `simple` fields absent, its `district_id` the
truthy field default `1`, so `set_district_id` cannot fail (the fallback
branch below is unreachable). -/
def create_plan (MAX_DISTRICTS planId : Nat) : State :=
  let st : State :=
    { plan_version := 0, districts := [], computed := [], next_pk := 1 }
  match save_district MAX_DISTRICTS st
      { name := "Unassigned", version := 0, plan := some planId } with
  | .ok (st', _) => st'
  | .error _ => st

/-- `District.clone_characteristics_from` (models.py:716): copy each
`ComputedCharacteristic` row of the origin snapshot into a new row owned
by this snapshot. -/
def clone_characteristics_from (st : State) (self_pk origin_pk : Nat) :
    State :=
  let copied := (st.computed.filter
    (fun c => decide (c.district = origin_pk))).map
    (fun c => { c with district := self_pk })
  { st with computed := st.computed ++ copied }

/-- `computed.save()` on a fetched row: replace the first
computed-characteristic row for `(subject, district)` in the table. -/
def replaceCC (subject district : Nat) (c' : CChar) :
    List CChar → List CChar
  | [] => []
  | c :: rest =>
      if c.subject = subject ∧ c.district = district then c' :: rest
      else c :: replaceCC subject district c' rest

/-- `District.delta_stats` (models.py:667): for each Subject, sum the
Characteristic values of the given geounits.  The SQL `Sum` is `None`
when no rows match, and a zero `Decimal` is falsy, so `if aggregate:`
passes exactly when the sum is present and non-zero; then fetch the first
`ComputedCharacteristic` for `(subject, self)` or create one with initial
value `0`, add the aggregate when `combine` is true and subtract it
otherwise, save, and set the changed flag.  Returns the updated table and
whether anything changed. -/
def delta_stats (env : Env) (self_pk : Nat) (geounits : List GUnit)
    (combine : Bool) (computed : List CChar) : List CChar × Bool :=
  env.subjects.foldl
    (fun acc subject =>
      let rows := env.characteristics.filter
        (fun c => decide (c.subject = subject) &&
          geounits.any (fun g => decide (g.id = c.geounit)))
      let aggregate : Option Int :=
        if rows.isEmpty then none
        else some ((rows.map Characteristic.number).sum)
      match aggregate with
      | none => acc
      | some a =>
          if a = 0 then acc
          else
            match (acc.1.filter (fun c => decide (c.subject = subject) &&
                decide (c.district = self_pk))).head? with
            | some c0 =>
                let n := if combine then c0.number + a else c0.number - a
                (replaceCC subject self_pk { c0 with number := n } acc.1, true)
            | none =>
                let n : Int := if combine then 0 + a else 0 - a
                let c' : CChar :=
                  { subject := subject, district := self_pk, number := n }
                (acc.1 ++ [c'], true))
    (computed, false)

/-! ### The boundary edit `Plan.add_geounits` -/

/-- The non-target geometry update of `add_geounits` (models.py:470-473):
`district.geom.difference(incremental)`, a `GEOSException` being recovered
as `empty_geom(incremental.srid)`. -/
def district_new_geom (env : Env) (dg incremental : Geometry) : Geometry :=
  match env.differenceG dg incremental with
  | .ok g => g
  | .error _ => empty_geom incremental.srid

/-- The target geometry update of `add_geounits` (models.py:498-505): when
the target has no geometry, `enforce_multi(incremental)`; otherwise
`enforce_multi(target.geom.union(incremental))`, a `GEOSException` leaving
the target's geometry absent (`target.geom = None`). -/
def target_new_geom (env : Env) (tg : Option Geometry)
    (incremental : Geometry) : Option Geometry :=
  match tg with
  | none => enforce_multi (some incremental)
  | some tg =>
      match env.unionG tg incremental with
      | .ok u => some (enforce_multi1 u)
      | .error _ => none

/-- A non-target district that does not overlap and does not contain the
incremental geometry (models.py:450-466): when it is not the latest
version of its `district_id`, save a copy of it at `plan.version + 1`,
clone its computed characteristics, and increment `fixed`. -/
def add_carried (MAX_DISTRICTS plan_version : Nat) (district : District)
    (st : State) (fixed : Nat) : Except (State × String) (State × Nat) :=
  match is_latest_version district st.districts with
  | .error e => .error (st, e)
  | .ok latest =>
      if latest then .ok (st, fixed)
      else
        match save_district MAX_DISTRICTS st
            { district with version := plan_version + 1, id := 0 } with
        | .error e => .error (st, e)
        | .ok (st1, saved) =>
            .ok (clone_characteristics_from st1 saved.id district.id,
              fixed + 1)

/-- A non-target district that overlaps or contains the incremental
geometry (models.py:468-493): capture its geounits *before* changing the
boundary, subtract the incremental geometry (failures degrade to the
canonical empty geometry), normalise with `enforce_multi`, store the
result (absent when empty), save a copy at `plan.version + 1`, clone the
computed characteristics, and apply the removal delta; increment `fixed`
when the delta changed any statistic. -/
def add_affected (env : Env) (MAX_DISTRICTS plan_version : Nat)
    (geounit_ids : List Nat) (geolevel : Nat) (incremental : Geometry)
    (district : District) (dg : Geometry) (st : State) (fixed : Nat) :
    Except (State × String) (State × Nat) :=
  match env.get_mixed geounit_ids geolevel district.geom true with
  | .error _ => .error (st, "GEOSException")
  | .ok geounits =>
      let geom := enforce_multi1 (district_new_geom env dg incremental)
      let district' :=
        if !geom.isEmpty then
          { district with
            geom := some geom
            simple := some (enforce_multi1 (env.simplifyG geom)) }
        else
          { district with geom := none, simple := none }
      match save_district MAX_DISTRICTS st
          { district' with version := plan_version + 1, id := 0 } with
      | .error e => .error (st, e)
      | .ok (st1, saved) =>
          let st2 := clone_characteristics_from st1 saved.id district.id
          let res := delta_stats env saved.id geounits false st2.computed
          .ok ({ st2 with computed := res.1 },
            if res.2 then fixed + 1 else fixed)

/-- The accumulator of the district loop of `add_geounits`: the evolving
database state, the `fixed` count, and the bound `target` (if any). -/
structure AddAcc where
  st : State
  fixed : Nat
  target : Option District

/-- The `for district in districts:` loop of `add_geounits`
(models.py:445-493): the district whose `district_id` matches binds
`target` and is skipped; an unaffected district is carried forward via
`add_carried`; an affected one (truthy geometry that overlaps or contains
the incremental geometry) goes through `add_affected`. -/
def add_geounits_loop (env : Env) (MAX_DISTRICTS : Nat) (districtid : Nat)
    (geounit_ids : List Nat) (geolevel : Nat) (incremental : Geometry)
    (plan_version : Nat) :
    List District → AddAcc → Except (State × String) AddAcc
  | [], acc => .ok acc
  | district :: rest, acc =>
      if district.district_id = districtid then
        add_geounits_loop env MAX_DISTRICTS districtid geounit_ids geolevel
          incremental plan_version rest { acc with target := some district }
      else
        let step :=
          match district.geom with
          | some dg =>
              if dg.truthy &&
                  (env.overlaps dg incremental || env.containsG dg incremental) then
                add_affected env MAX_DISTRICTS plan_version geounit_ids
                  geolevel incremental district dg acc.st acc.fixed
              else
                add_carried MAX_DISTRICTS plan_version district acc.st acc.fixed
          | none => add_carried MAX_DISTRICTS plan_version district acc.st acc.fixed
        match step with
        | .error e => .error e
        | .ok (st', fixed') =>
            add_geounits_loop env MAX_DISTRICTS districtid geounit_ids
              geolevel incremental plan_version rest
              { st := st', fixed := fixed', target := acc.target }

/-- The target-district phase of `add_geounits` (models.py:495-527):
capture the geounits outside the target's *current* boundary, update the
target's geometry via `target_new_geom`, re-derive its simplified geometry
when the new geometry is truthy, save a copy at `plan.version + 1`, clone
the computed characteristics, apply the addition delta only when the
copy's geometry is truthy (`target_copy.geom and target_copy.delta_stats`
short-circuits), finally increment and persist `plan.version`. -/
def add_target (env : Env) (MAX_DISTRICTS : Nat) (st : State) (fixed : Nat)
    (target : District) (geounit_ids : List Nat) (geolevel : Nat)
    (incremental : Geometry) (plan_version : Nat) :
    State × Except String Nat :=
  match env.get_mixed geounit_ids geolevel target.geom false with
  | .error _ => (st, .error "GEOSException")
  | .ok geounits =>
      let target1 := { target with
        geom := target_new_geom env target.geom incremental }
      let target2 :=
        match target1.geom with
        | some g =>
            if g.truthy then
              let s := some (enforce_multi1 (env.simplifyG g))
              { target1 with simple := s }
            else { target1 with simple := none }
        | none => { target1 with simple := none }
      match save_district MAX_DISTRICTS st
          { target2 with version := plan_version + 1, id := 0 } with
      | .error e => (st, .error e)
      | .ok (st1, saved) =>
          let st2 := clone_characteristics_from st1 saved.id target.id
          let next :=
            if geomTruthy saved.geom then
              let res := delta_stats env saved.id geounits true st2.computed
              ({ st2 with computed := res.1 },
                if res.2 then fixed + 1 else fixed)
            else (st2, fixed)
          ({ next.1 with plan_version := next.1.plan_version + 1 },
            .ok next.2)

/-- `Plan.add_geounits` (models.py:434): add the requested geounits to the
given district and remove them from whichever districts currently hold
them.  Returns the final database state together with the number of
districts "fixed" or the Python exception raised.  Rows saved before an
exception persist (each `save()` commits on its own); `plan.version` is
incremented only on the success path.  An empty `unionagg` result (`None`)
would raise on first use inside the loop; it is modelled as an upfront
`TypeError` with the state unchanged. -/
def add_geounits (env : Env) (MAX_DISTRICTS : Nat) (st : State)
    (districtid : Nat) (geounit_ids : List Nat) (geolevel : Nat)
    (version : Nat) : State × Except String Nat :=
  match env.unionagg geounit_ids with
  | none => (st, .error "TypeError: unsupported operand: NoneType")
  | some incremental =>
      let districts := get_districts_at_version st.districts version
      match add_geounits_loop env MAX_DISTRICTS districtid geounit_ids
          geolevel incremental st.plan_version districts
          { st := st, fixed := 0, target := none } with
      | .error (st', e) => (st', .error e)
      | .ok acc =>
          match acc.target with
          | none =>
              (acc.st, .error
                "UnboundLocalError: local variable 'target' referenced before assignment")
          | some target =>
              add_target env MAX_DISTRICTS acc.st acc.fixed target
                geounit_ids geolevel incremental st.plan_version

/-! ### The containment search `Geounit.get_mixed_geounits` -/

/-- The environment of the containment search: the geolevel ids in
ascending order, the configured base geolevel, the geounit table, and the
geometry-engine / SQL capabilities. -/
structure GeoEnv where
  geolevels : List Nat
  BASE_GEOLEVEL : Nat
  units : List UnitRec
  unionaggG : List Nat → Option Geometry
  intersectionG : Geometry → Geometry → Except Unit Geometry
  differenceG : Geometry → Geometry → Except Unit Geometry
  unionG : Geometry → Geometry → Except Unit Geometry
  simplifyG : Geometry → Geometry
  st_within : Geometry → Geometry → Bool
  st_intersects : Geometry → Geometry → Bool

/-- The inside-search remainder (models.py:315-319):
`boundary.intersection(intersects)`, a `GEOSException` being recovered as
`empty_geom(boundary.srid)`. -/
def remainder_inside (env : GeoEnv) (boundary intersects : Geometry) :
    Geometry :=
  match env.intersectionG boundary intersects with
  | .ok r => r
  | .error _ => empty_geom boundary.srid

/-- The outside-search remainder (models.py:327-333):
`selection.difference(boundary).intersection(intersects)`, a
`GEOSException` from either operation being recovered as
`empty_geom(boundary.srid)`. -/
def remainder_outside (env : GeoEnv) (selection boundary intersects : Geometry) :
    Geometry :=
  match env.differenceG selection boundary with
  | .error _ => empty_geom boundary.srid
  | .ok r1 =>
      match env.intersectionG r1 intersects with
      | .ok r => r
      | .error _ => empty_geom boundary.srid

/-- The running union of the already-collected geounits
(models.py:295-302).  `union.union(selected.geom)` is *not* wrapped in a
`try`, so a `GEOSException` here propagates out of the search. -/
def units_union (env : GeoEnv) (units : List GUnit) :
    Except Unit (Option Geometry) :=
  units.foldlM (fun u selected =>
    match u with
    | none => pure (some selected.geom)
    | some u0 => (env.unionG u0 selected.geom).map some) none

/-- `union.append(poly)`: append a polygon member to a multipolygon. -/
def appendPoly (m p : Geometry) : Geometry :=
  .mk m.gtype false m.srid (m.members ++ [p])

/-- The remainder coercion (models.py:338-359): a nonempty geometry
collection keeps only its polygonal members (each passed through
`enforce_multi`), re-tagged with the collection's srid, collapsing to the
canonical empty geometry when none remain; any other empty or
non-polygonal remainder collapses to `empty_geom(boundary.srid)`. -/
def munge_remainder (boundary remainder : Geometry) : Geometry :=
  if remainder.gtype = .geometrycollection ∧ remainder.isEmpty = false then
    let srid := remainder.srid
    let union := remainder.members.foldl
      (fun (u : Option Geometry) geom =>
        let mgeom := enforce_multi1 geom
        if mgeom.gtype = .multipolygon then
          match u with
          | none => some mgeom
          | some u0 => some (mgeom.members.foldl appendPoly u0)
        else u) none
    match union with
    | some r =>
        if r.truthy then .mk r.gtype r.isEmpty srid r.members
        else empty_geom srid
    | none => empty_geom srid
  else if remainder.isEmpty ∨
      (remainder.gtype ≠ .multipolygon ∧ remainder.gtype ≠ .polygon) then
    empty_geom boundary.srid
  else remainder

/-- The per-unit SQL predicate of the seed-level query
(models.py:258-273). -/
def seed_pred (env : GeoEnv) (level : Nat) (inside : Bool)
    (simple : Geometry) (u : UnitRec) : Bool :=
  if inside then
    if level ≠ env.BASE_GEOLEVEL then env.st_within u.geom simple
    else env.st_intersects u.center simple
  else
    if level ≠ env.BASE_GEOLEVEL then !(env.st_intersects u.geom simple)
    else !(env.st_intersects u.center simple)

/-- The per-unit SQL predicate of the finer-level remainder query
(models.py:370-375). -/
def finer_pred (env : GeoEnv) (level : Nat) (simple : Geometry)
    (u : UnitRec) : Bool :=
  if level = env.BASE_GEOLEVEL then env.st_intersects u.center simple
  else env.st_within u.geom simple

/-- The level loop of `get_mixed_geounits` (models.py:242-384), carrying
the selection, the (possibly replaced) boundary, and the collected units.
At the seed level the selection is the `unionagg` of the requested units
and a falsy boundary is replaced by `empty_geom(selection.srid)`; the
search returns early when the seed level is the base level.  At each finer
level the geometric remainder is computed (engine failures in the guarded
operations collapse to the canonical empty geometry; the unguarded ones
propagate), coerced to a multipolygon, and queried when nonempty. -/
def gmg_loop (env : GeoEnv) (geounit_ids : List Nat) (geolevel : Nat)
    (inside : Bool) :
    List Nat → Option Geometry → Option Geometry → List GUnit →
    Except String (List GUnit)
  | [], _, _, units => .ok units
  | level :: rest, selection, boundary, units =>
      if geolevel = level then
        let selection := env.unionaggG geounit_ids
        let boundaryE : Except String Geometry :=
          match boundary with
          | some b =>
              if b.truthy then .ok b
              else
                match selection with
                | some s => .ok (empty_geom s.srid)
                | none => .error "AttributeError: 'NoneType' object has no attribute 'srid'"
          | none =>
              match selection with
              | some s => .ok (empty_geom s.srid)
              | none => .error "AttributeError: 'NoneType' object has no attribute 'srid'"
        match boundaryE with
        | .error e => .error e
        | .ok boundaryG =>
            let simple := env.simplifyG boundaryG
            let matched := env.units.filter
              (fun u => geounit_ids.contains u.id &&
                seed_pred env level inside simple u)
            let units := units ++ matched.map
              (fun u => { id := u.id, geom := u.geom : GUnit })
            if level = env.BASE_GEOLEVEL then .ok units
            else
              gmg_loop env geounit_ids geolevel inside rest selection
                (some boundaryG) units
      else if geolevel < level then
        match units_union env units with
        | .error _ => .error "GEOSException"
        | .ok union =>
            match selection with
            | none => .error "TypeError: selection is None"
            | some selectionG =>
                let intersectsE : Except Unit Geometry :=
                  match union with
                  | none => .ok selectionG
                  | some u => env.differenceG selectionG u
                match intersectsE with
                | .error _ => .error "GEOSException"
                | .ok intersects =>
                    match boundary with
                    | none => .error "AttributeError: boundary is None"
                    | some boundaryG =>
                        let remainder :=
                          if inside then
                            remainder_inside env boundaryG intersects
                          else
                            remainder_outside env selectionG boundaryG intersects
                        let remainder := munge_remainder boundaryG remainder
                        let units :=
                          if remainder.isEmpty then units
                          else
                            let simple := env.simplifyG remainder
                            units ++ (env.units.filter
                              (fun u => decide (u.geolevel = level) &&
                                finer_pred env level simple u)).map
                              (fun u => { id := u.id, geom := u.geom : GUnit })
                        gmg_loop env geounit_ids geolevel inside rest
                          (some selectionG) (some boundaryG) units
      else
        gmg_loop env geounit_ids geolevel inside rest selection boundary units

/-- `Geounit.get_mixed_geounits` (models.py:207): the multipass
containment search for the largest geounits inside or outside a boundary.
Returns the collected geounits (id and geometry only) or the uncaught
Python exception.  There are zero geounits inside a falsy boundary. -/
def get_mixed_geounits (env : GeoEnv) (geounit_ids : List Nat)
    (geolevel : Nat) (boundary : Option Geometry) (inside : Bool) :
    Except String (List GUnit) :=
  if !geomTruthy boundary && inside then .ok []
  else gmg_loop env geounit_ids geolevel inside env.geolevels none boundary []

/-! ### C9: plan creation creates the reserved unassigned district -/

/-- The row that plan creation inserts (used to state C9). -/
def unassignedRow (planId : Nat) : District :=
  { id := 1
    district_id := 1
    name := "Unassigned"
    plan := some planId
    geom := none
    simple := none
    version := 0 }

/-- C9: creating a plan creates exactly one district row: the reserved
"Unassigned" district at version 0 belonging to that plan, with absent
full and simplified geometry, and leaves the plan's version at 0. -/
theorem C9_plan_creation_unassigned (MAX_DISTRICTS planId : Nat) :
    create_plan MAX_DISTRICTS planId =
      { plan_version := 0
        districts := [unassignedRow planId]
        computed := []
        next_pk := 2 } ∧
    ∀ u ∈ (create_plan MAX_DISTRICTS planId).districts,
      u.name = "Unassigned" ∧ u.version = 0 ∧ u.plan = some planId ∧
        u.geom = none ∧ u.simple = none := by
  refine ⟨rfl, ?_⟩
  intro u hu
  have h : (create_plan MAX_DISTRICTS planId).districts =
      [unassignedRow planId] := rfl
  rw [h] at hu
  rcases List.mem_singleton.mp hu with rfl
  exact ⟨rfl, rfl, rfl, rfl, rfl⟩

/-! ### Run-analysis lemmas for `add_geounits` -/

theorem set_district_id_ok_proj {M : Nat} {ds : List District}
    {d d' : District} (h : set_district_id M ds d = .ok d') :
    d'.id = d.id ∧ d'.version = d.version ∧ d'.geom = d.geom ∧
      d'.simple = d.simple ∧ d'.plan = d.plan ∧ d'.name = d.name := by
  simp only [set_district_id] at h
  split_ifs at h
  · injection h with h1
    subst h1
    exact ⟨rfl, rfl, rfl, rfl, rfl, rfl⟩
  · injection h with h1
    subst h1
    exact ⟨rfl, rfl, rfl, rfl, rfl, rfl⟩
  · injection h with h1
    subst h1
    exact ⟨rfl, rfl, rfl, rfl, rfl, rfl⟩

theorem set_district_id_truthy {M : Nat} {ds : List District} {d : District}
    (h : d.district_id ≠ 0) : set_district_id M ds d = .ok d := by
  simp [set_district_id, h]

theorem save_district_ok_insert {M : Nat} {st : State} {d : District}
    {st' : State} {saved : District} (h0 : d.id = 0)
    (h : save_district M st d = .ok (st', saved)) :
    st'.districts = st.districts ++ [saved] ∧
      st'.plan_version = st.plan_version ∧
      st'.computed = st.computed ∧
      st'.next_pk = st.next_pk + 1 ∧
      saved.id = st.next_pk ∧
      saved.version = d.version ∧ saved.geom = d.geom ∧
      saved.simple = d.simple ∧ saved.plan = d.plan := by
  cases hset : set_district_id M st.districts d with
  | error e =>
      exfalso
      unfold save_district at h
      rw [hset] at h
      exact absurd h (by simp)
  | ok d' =>
      obtain ⟨hid, hver, hgeom, hsimple, hplan, -⟩ :=
        set_district_id_ok_proj hset
      have hid0 : d'.id = 0 := by rw [hid, h0]
      have hrun : save_district M st d =
          .ok ({ st with
                  districts := st.districts ++ [{ d' with id := st.next_pk }]
                  next_pk := st.next_pk + 1 },
                { d' with id := st.next_pk }) := by
        unfold save_district
        rw [hset]
        simp [hid0]
      rw [hrun] at h
      injection h with h1
      injection h1 with hst hsaved
      subst hst
      subst hsaved
      refine ⟨rfl, rfl, rfl, rfl, rfl, ?_, ?_, ?_, ?_⟩ <;>
        simp [hver, hgeom, hsimple, hplan]

theorem save_district_truthy {M : Nat} {st : State} {d : District}
    (hdid : d.district_id ≠ 0) (h0 : d.id = 0) :
    save_district M st d = .ok
      ({ st with
          districts := st.districts ++ [{ d with id := st.next_pk }]
          next_pk := st.next_pk + 1 },
        { d with id := st.next_pk }) := by
  unfold save_district
  rw [set_district_id_truthy hdid]
  simp [h0]

theorem add_carried_ok {M pv : Nat} {district : District} {st : State}
    {fixed : Nat} {st' : State} {fixed' : Nat}
    (h : add_carried M pv district st fixed = .ok (st', fixed')) :
    st'.plan_version = st.plan_version ∧
      ∃ ext, st'.districts = st.districts ++ ext ∧
        ∀ x ∈ ext, x.version = pv + 1 := by
  unfold add_carried at h
  cases hlat : is_latest_version district st.districts with
  | error e => rw [hlat] at h; exact absurd h (by simp)
  | ok latest =>
      rw [hlat] at h
      simp only [] at h
      by_cases hl : latest = true
      · rw [if_pos hl] at h
        injection h with h1
        injection h1 with h2 h3
        subst h2
        exact ⟨rfl, [], by simp, by simp⟩
      · rw [if_neg hl] at h
        cases hsave : save_district M st
            { district with version := pv + 1, id := 0 } with
        | error e => rw [hsave] at h; simp at h
        | ok pair =>
            obtain ⟨st1, saved⟩ := pair
            rw [hsave] at h
            simp only [] at h
            injection h with h1
            injection h1 with h2 h3
            subst h2
            obtain ⟨hds, hpv, -, -, -, hver, -, -, -⟩ :=
              save_district_ok_insert rfl hsave
            refine ⟨hpv, [saved], ?_, ?_⟩
            · show st1.districts = st.districts ++ [saved]
              exact hds
            · intro x hx
              rcases List.mem_singleton.mp hx with rfl
              exact hver

theorem add_carried_err {M pv : Nat} {district : District} {st : State}
    {fixed : Nat} {st' : State} {e : String}
    (h : add_carried M pv district st fixed = .error (st', e)) :
    st' = st := by
  unfold add_carried at h
  cases hlat : is_latest_version district st.districts with
  | error e0 =>
      rw [hlat] at h
      simp only [] at h
      injection h with h1
      injection h1 with h2 h3
      exact h2.symm
  | ok latest =>
      rw [hlat] at h
      simp only [] at h
      by_cases hl : latest = true
      · rw [if_pos hl] at h; simp at h
      · rw [if_neg hl] at h
        cases hsave : save_district M st
            { district with version := pv + 1, id := 0 } with
        | error e0 =>
            rw [hsave] at h
            simp only [] at h
            injection h with h1
            injection h1 with h2 h3
            exact h2.symm
        | ok pair =>
            obtain ⟨st1, saved⟩ := pair
            rw [hsave] at h
            simp at h

theorem add_affected_ok {env : Env} {M pv : Nat} {gids : List Nat}
    {gl : Nat} {inc : Geometry} {district : District} {dg : Geometry}
    {st : State} {fixed : Nat} {st' : State} {fixed' : Nat}
    (h : add_affected env M pv gids gl inc district dg st fixed =
      .ok (st', fixed')) :
    st'.plan_version = st.plan_version ∧
      ∃ ext, st'.districts = st.districts ++ ext ∧
        ∀ x ∈ ext, x.version = pv + 1 := by
  unfold add_affected at h
  cases hgm : env.get_mixed gids gl district.geom true with
  | error e => rw [hgm] at h; exact absurd h (by simp)
  | ok geounits =>
      rw [hgm] at h
      simp only [] at h
      cases hsave : save_district M st
          { (if !(enforce_multi1 (district_new_geom env dg inc)).isEmpty then
              { district with
                geom := some (enforce_multi1 (district_new_geom env dg inc))
                simple := some (enforce_multi1 (env.simplifyG
                  (enforce_multi1 (district_new_geom env dg inc)))) }
            else { district with geom := none, simple := none }) with
            version := pv + 1, id := 0 } with
      | error e => rw [hsave] at h; simp at h
      | ok pair =>
          obtain ⟨st1, saved⟩ := pair
          rw [hsave] at h
          simp only [] at h
          injection h with h1
          injection h1 with h2 h3
          subst h2
          obtain ⟨hds, hpv, hcomp, -, -, hver, -, -, -⟩ :=
            save_district_ok_insert rfl hsave
          refine ⟨hpv, [saved], ?_, ?_⟩
          · show ({ clone_characteristics_from st1 saved.id district.id with
              computed := (delta_stats env saved.id geounits false
                (clone_characteristics_from st1 saved.id district.id).computed).1 }).districts
              = st.districts ++ [saved]
            exact hds
          · intro x hx
            rcases List.mem_singleton.mp hx with rfl
            exact hver

theorem add_affected_err {env : Env} {M pv : Nat} {gids : List Nat}
    {gl : Nat} {inc : Geometry} {district : District} {dg : Geometry}
    {st : State} {fixed : Nat} {st' : State} {e : String}
    (h : add_affected env M pv gids gl inc district dg st fixed =
      .error (st', e)) :
    st' = st := by
  unfold add_affected at h
  cases hgm : env.get_mixed gids gl district.geom true with
  | error e0 =>
      rw [hgm] at h
      simp only [] at h
      injection h with h1
      injection h1 with h2 h3
      exact h2.symm
  | ok geounits =>
      rw [hgm] at h
      simp only [] at h
      cases hsave : save_district M st
          { (if !(enforce_multi1 (district_new_geom env dg inc)).isEmpty then
              { district with
                geom := some (enforce_multi1 (district_new_geom env dg inc))
                simple := some (enforce_multi1 (env.simplifyG
                  (enforce_multi1 (district_new_geom env dg inc)))) }
            else { district with geom := none, simple := none }) with
            version := pv + 1, id := 0 } with
      | error e0 =>
          rw [hsave] at h
          simp only [] at h
          injection h with h1
          injection h1 with h2 h3
          exact h2.symm
      | ok pair =>
          obtain ⟨st1, saved⟩ := pair
          rw [hsave] at h
          simp at h

/-- The per-district step of the loop (the `let step := ...` body). -/
theorem add_step_ok {env : Env} {M pv : Nat} {gids : List Nat} {gl : Nat}
    {inc : Geometry} {district : District} {st : State} {fixed : Nat}
    {st1 : State} {f1 : Nat}
    (h : (match district.geom with
      | some dg =>
          if dg.truthy && (env.overlaps dg inc || env.containsG dg inc) then
            add_affected env M pv gids gl inc district dg st fixed
          else add_carried M pv district st fixed
      | none => add_carried M pv district st fixed) = .ok (st1, f1)) :
    st1.plan_version = st.plan_version ∧
      ∃ ext, st1.districts = st.districts ++ ext ∧
        ∀ x ∈ ext, x.version = pv + 1 := by
  cases hg : district.geom with
  | none => rw [hg] at h; simp only [] at h; exact add_carried_ok h
  | some dg =>
      rw [hg] at h
      simp only [] at h
      by_cases hc : (dg.truthy &&
          (env.overlaps dg inc || env.containsG dg inc)) = true
      · rw [if_pos hc] at h; exact add_affected_ok h
      · rw [if_neg hc] at h; exact add_carried_ok h

theorem add_step_err {env : Env} {M pv : Nat} {gids : List Nat} {gl : Nat}
    {inc : Geometry} {district : District} {st : State} {fixed : Nat}
    {st1 : State} {e : String}
    (h : (match district.geom with
      | some dg =>
          if dg.truthy && (env.overlaps dg inc || env.containsG dg inc) then
            add_affected env M pv gids gl inc district dg st fixed
          else add_carried M pv district st fixed
      | none => add_carried M pv district st fixed) = .error (st1, e)) :
    st1 = st := by
  cases hg : district.geom with
  | none => rw [hg] at h; simp only [] at h; exact add_carried_err h
  | some dg =>
      rw [hg] at h
      simp only [] at h
      by_cases hc : (dg.truthy &&
          (env.overlaps dg inc || env.containsG dg inc)) = true
      · rw [if_pos hc] at h; exact add_affected_err h
      · rw [if_neg hc] at h; exact add_carried_err h

theorem add_geounits_loop_run_ok {env : Env} {M districtid : Nat}
    {gids : List Nat} {gl : Nat} {inc : Geometry} {pv : Nat}
    (l : List District) :
    ∀ (acc acc' : AddAcc),
    add_geounits_loop env M districtid gids gl inc pv l acc = .ok acc' →
    acc'.st.plan_version = acc.st.plan_version ∧
      ∃ ext, acc'.st.districts = acc.st.districts ++ ext ∧
        ∀ x ∈ ext, x.version = pv + 1 := by
  induction l with
  | nil =>
      intro acc acc' h
      simp only [add_geounits_loop] at h
      injection h with h1
      subst h1
      exact ⟨rfl, [], by simp, by simp⟩
  | cons district rest ih =>
      intro acc acc' h
      simp only [add_geounits_loop] at h
      by_cases hd : district.district_id = districtid
      · rw [if_pos hd] at h
        have hh := ih _ _ h
        exact hh
      · rw [if_neg hd] at h
        cases hstep : (match district.geom with
          | some dg =>
              if dg.truthy && (env.overlaps dg inc || env.containsG dg inc) then
                add_affected env M pv gids gl inc district dg acc.st acc.fixed
              else add_carried M pv district acc.st acc.fixed
          | none => add_carried M pv district acc.st acc.fixed) with
        | error e => rw [hstep] at h; exact absurd h (by simp)
        | ok pair =>
            obtain ⟨st1, f1⟩ := pair
            rw [hstep] at h
            simp only [] at h
            obtain ⟨hpv1, ext1, hds1, hv1⟩ := add_step_ok hstep
            obtain ⟨hpv2, ext2, hds2, hv2⟩ := ih _ _ h
            refine ⟨by rw [hpv2]; exact hpv1, ext1 ++ ext2, ?_, ?_⟩
            · rw [hds2]
              show st1.districts ++ ext2 = acc.st.districts ++ (ext1 ++ ext2)
              rw [hds1, List.append_assoc]
            · intro x hx
              rcases List.mem_append.mp hx with hx | hx
              · exact hv1 x hx
              · exact hv2 x hx

theorem add_geounits_loop_run_err {env : Env} {M districtid : Nat}
    {gids : List Nat} {gl : Nat} {inc : Geometry} {pv : Nat}
    (l : List District) :
    ∀ (acc : AddAcc) (st' : State) (e : String),
    add_geounits_loop env M districtid gids gl inc pv l acc =
      .error (st', e) →
    st'.plan_version = acc.st.plan_version ∧
      ∃ ext, st'.districts = acc.st.districts ++ ext ∧
        ∀ x ∈ ext, x.version = pv + 1 := by
  induction l with
  | nil =>
      intro acc st' e h
      simp only [add_geounits_loop] at h
      exact absurd h (by simp)
  | cons district rest ih =>
      intro acc st' e h
      simp only [add_geounits_loop] at h
      by_cases hd : district.district_id = districtid
      · rw [if_pos hd] at h
        have hh := ih _ _ _ h
        exact hh
      · rw [if_neg hd] at h
        cases hstep : (match district.geom with
          | some dg =>
              if dg.truthy && (env.overlaps dg inc || env.containsG dg inc) then
                add_affected env M pv gids gl inc district dg acc.st acc.fixed
              else add_carried M pv district acc.st acc.fixed
          | none => add_carried M pv district acc.st acc.fixed) with
        | error pair =>
            obtain ⟨st1, e1⟩ := pair
            rw [hstep] at h
            simp only [] at h
            injection h with h1
            injection h1 with h2 h3
            subst h2
            obtain rfl : st1 = acc.st := add_step_err hstep
            exact ⟨rfl, [], by simp, by simp⟩
        | ok pair =>
            obtain ⟨st1, f1⟩ := pair
            rw [hstep] at h
            simp only [] at h
            obtain ⟨hpv1, ext1, hds1, hv1⟩ := add_step_ok hstep
            obtain ⟨hpv2, ext2, hds2, hv2⟩ := ih _ _ _ h
            refine ⟨by rw [hpv2]; exact hpv1, ext1 ++ ext2, ?_, ?_⟩
            · rw [hds2]
              show st1.districts ++ ext2 = acc.st.districts ++ (ext1 ++ ext2)
              rw [hds1, List.append_assoc]
            · intro x hx
              rcases List.mem_append.mp hx with hx | hx
              · exact hv1 x hx
              · exact hv2 x hx

theorem add_target_ok {env : Env} {M : Nat} {st : State} {fixed : Nat}
    {target : District} {gids : List Nat} {gl : Nat} {inc : Geometry}
    {pv : Nat} {st' : State} {n : Nat}
    (h : add_target env M st fixed target gids gl inc pv = (st', .ok n)) :
    st'.plan_version = st.plan_version + 1 ∧
      ∃ ext, st'.districts = st.districts ++ ext ∧
        ∀ x ∈ ext, x.version = pv + 1 := by
  unfold add_target at h
  cases hgm : env.get_mixed gids gl target.geom false with
  | error e =>
      rw [hgm] at h
      simp only [] at h
      injection h with h1 h2
      exact absurd h2 (by simp)
  | ok geounits =>
      rw [hgm] at h
      simp only [] at h
      split at h
      next e heq =>
        injection h with h1 h2
        exact absurd h2 (by simp)
      next st1 saved heq =>
        obtain ⟨hds, hpv, hcomp, hnpk, hid, hver, -, -, -⟩ :=
          save_district_ok_insert rfl heq
        injection h with h1 h2
        subst h1
        constructor
        · show (if geomTruthy saved.geom then _ else _ : State × Nat).1.plan_version + 1 = _
          split <;> simpa using hpv
        · refine ⟨[saved], ?_, ?_⟩
          · show (if geomTruthy saved.geom then _ else _ : State × Nat).1.districts = _
            split <;> simpa using hds
          · intro x hx
            rcases List.mem_singleton.mp hx with rfl
            exact hver

theorem add_target_err {env : Env} {M : Nat} {st : State} {fixed : Nat}
    {target : District} {gids : List Nat} {gl : Nat} {inc : Geometry}
    {pv : Nat} {st' : State} {e : String}
    (h : add_target env M st fixed target gids gl inc pv = (st', .error e)) :
    st' = st := by
  unfold add_target at h
  cases hgm : env.get_mixed gids gl target.geom false with
  | error e0 =>
      rw [hgm] at h
      simp only [] at h
      injection h with h1 h2
      exact h1.symm
  | ok geounits =>
      rw [hgm] at h
      simp only [] at h
      split at h
      next e0 heq =>
        injection h with h1 h2
        exact h1.symm
      next st1 saved heq =>
        injection h with h1 h2
        exact absurd h2.symm (by simp)

theorem add_geounits_ok_version {env : Env} {M : Nat} {st : State}
    {did : Nat} {gids : List Nat} {gl v : Nat} {st' : State} {n : Nat}
    (h : add_geounits env M st did gids gl v = (st', .ok n)) :
    st'.plan_version = st.plan_version + 1 ∧
      ∀ d ∈ st'.districts, d ∈ st.districts ∨
        d.version = st.plan_version + 1 := by
  unfold add_geounits at h
  cases hu : env.unionagg gids with
  | none =>
      rw [hu] at h
      simp only [] at h
      injection h with h1 h2
      exact absurd h2 (by simp)
  | some inc =>
      rw [hu] at h
      simp only [] at h
      cases hloop : add_geounits_loop env M did gids gl inc st.plan_version
          (get_districts_at_version st.districts v)
          { st := st, fixed := 0, target := none } with
      | error pair =>
          obtain ⟨st'', e⟩ := pair
          rw [hloop] at h
          simp only [] at h
          injection h with h1 h2
          exact absurd h2 (by simp)
      | ok acc =>
          rw [hloop] at h
          simp only [] at h
          obtain ⟨hpv1, ext1, hds1, hv1⟩ :=
            add_geounits_loop_run_ok _ _ _ hloop
          cases hacc : acc.target with
          | none =>
              rw [hacc] at h
              simp only [] at h
              injection h with h1 h2
              exact absurd h2 (by simp)
          | some target =>
              rw [hacc] at h
              simp only [] at h
              obtain ⟨hpv2, ext2, hds2, hv2⟩ := add_target_ok h
              constructor
              · rw [hpv2, hpv1]
              · intro d hd
                rw [hds2, hds1] at hd
                rcases List.mem_append.mp hd with hd | hd
                · rcases List.mem_append.mp hd with hd | hd
                  · exact Or.inl hd
                  · exact Or.inr (hv1 d hd)
                · exact Or.inr (hv2 d hd)

theorem add_geounits_err_version {env : Env} {M : Nat} {st : State}
    {did : Nat} {gids : List Nat} {gl v : Nat} {st' : State} {e : String}
    (h : add_geounits env M st did gids gl v = (st', .error e)) :
    st'.plan_version = st.plan_version ∧
      ∃ ext, st'.districts = st.districts ++ ext ∧
        ∀ x ∈ ext, x.version = st.plan_version + 1 := by
  unfold add_geounits at h
  cases hu : env.unionagg gids with
  | none =>
      rw [hu] at h
      simp only [] at h
      injection h with h1 h2
      subst h1
      exact ⟨rfl, [], by simp, by simp⟩
  | some inc =>
      rw [hu] at h
      simp only [] at h
      cases hloop : add_geounits_loop env M did gids gl inc st.plan_version
          (get_districts_at_version st.districts v)
          { st := st, fixed := 0, target := none } with
      | error pair =>
          obtain ⟨st'', e0⟩ := pair
          rw [hloop] at h
          simp only [] at h
          injection h with h1 h2
          subst h1
          have hh := add_geounits_loop_run_err _ _ _ _ hloop
          exact ⟨hh.1, hh.2⟩
      | ok acc =>
          rw [hloop] at h
          simp only [] at h
          obtain ⟨hpv1, ext1, hds1, hv1⟩ :=
            add_geounits_loop_run_ok _ _ _ hloop
          cases hacc : acc.target with
          | none =>
              rw [hacc] at h
              simp only [] at h
              injection h with h1 h2
              subst h1
              exact ⟨hpv1, ext1, hds1, hv1⟩
          | some target =>
              rw [hacc] at h
              simp only [] at h
              obtain rfl : st' = acc.st := add_target_err h
              exact ⟨hpv1, ext1, hds1, hv1⟩

/-! ### C3: version monotonicity -/

/-- One call of the editing API, for properties of call sequences. -/
structure EditCall where
  districtid : Nat
  geounit_ids : List Nat
  geolevel : Nat
  version : Nat

/-- Run a sequence of `add_geounits` calls; `none` when any call raises
(an unsuccessful call sequence). -/
def runCalls (env : Env) (M : Nat) : State → List EditCall → Option State
  | st, [] => some st
  | st, c :: rest =>
      match add_geounits env M st c.districtid c.geounit_ids c.geolevel
          c.version with
      | (st', .ok _) => runCalls env M st' rest
      | (_, .error _) => none

theorem runCalls_version (env : Env) (M : Nat) (calls : List EditCall) :
    ∀ (st st' : State),
    runCalls env M st calls = some st' →
    (∀ d ∈ st.districts, d.version ≤ st.plan_version) →
    st'.plan_version = st.plan_version + calls.length ∧
      ∀ d ∈ st'.districts, d.version ≤ st'.plan_version := by
  induction calls with
  | nil =>
      intro st st' h hv
      simp only [runCalls] at h
      injection h with h1
      subst h1
      exact ⟨by simp, hv⟩
  | cons c rest ih =>
      intro st st' h hv
      simp only [runCalls] at h
      cases hadd : add_geounits env M st c.districtid c.geounit_ids
          c.geolevel c.version with
      | mk st1 res =>
          rw [hadd] at h
          cases res with
          | error e => simp only [] at h; exact absurd h (by simp)
          | ok n =>
              simp only [] at h
              obtain ⟨hpv, hmem⟩ := add_geounits_ok_version hadd
              have hv1 : ∀ d ∈ st1.districts, d.version ≤ st1.plan_version := by
                intro d hd
                rcases hmem d hd with hd' | hd'
                · have := hv d hd'
                  omega
                · omega
              obtain ⟨h1, h2⟩ := ih st1 st' h hv1
              refine ⟨?_, h2⟩
              rw [h1, hpv]
              simp [List.length_cons]
              omega

/-- C3: a plan's version starts at `0`; each successful `add_geounits`
call increments it by exactly one (and an unsuccessful call leaves it
unchanged, so nothing else increments it); every district snapshot created
by an edit carries version `plan.version + 1` of the pre-edit plan; hence
after `N` successful calls `plan.version = N` and every snapshot version
lies in `{0, ..., N}`. -/
theorem C3_version_monotonicity (env : Env) (M planId : Nat) :
    (create_plan M planId).plan_version = 0 ∧
    (∀ (st : State) (did : Nat) (gids : List Nat) (gl v : Nat)
        (st' : State) (n : Nat),
        add_geounits env M st did gids gl v = (st', .ok n) →
        st'.plan_version = st.plan_version + 1 ∧
          ∀ d ∈ st'.districts, d ∈ st.districts ∨
            d.version = st.plan_version + 1) ∧
    (∀ (st : State) (did : Nat) (gids : List Nat) (gl v : Nat)
        (st' : State) (e : String),
        add_geounits env M st did gids gl v = (st', .error e) →
        st'.plan_version = st.plan_version) ∧
    (∀ (calls : List EditCall) (st' : State),
        runCalls env M (create_plan M planId) calls = some st' →
        st'.plan_version = calls.length ∧
          ∀ d ∈ st'.districts, d.version ≤ calls.length) := by
  refine ⟨rfl, fun st did gids gl v st' n h => add_geounits_ok_version h,
    fun st did gids gl v st' e h => (add_geounits_err_version h).1, ?_⟩
  intro calls st' h
  have hv0 : ∀ d ∈ (create_plan M planId).districts,
      d.version ≤ (create_plan M planId).plan_version := by
    intro d hd
    have h9 := (C9_plan_creation_unassigned M planId).2 d hd
    simp [h9.2.1]
  obtain ⟨h1, h2⟩ := runCalls_version env M calls _ st' h hv0
  have hz : (create_plan M planId).plan_version = 0 := rfl
  rw [hz] at h1
  simp only [Nat.zero_add] at h1
  rw [← h1]
  exact ⟨rfl, h2⟩

/-- A small concrete environment in which edits succeed: one nonempty
multipolygon for every union, no overlaps, a containment search returning
no geounits, and no subjects. -/
def demoGeom : Geometry :=
  .mk .multipolygon false 3785 [.mk .polygon false 3785 []]

def demoEnv : Env :=
  { subjects := []
    characteristics := []
    unionagg := fun _ => some demoGeom
    overlaps := fun _ _ => false
    containsG := fun _ _ => false
    differenceG := fun a _ => .ok a
    unionG := fun a _ => .ok a
    simplifyG := fun g => g
    get_mixed := fun _ _ _ _ => .ok [] }

def demoCall : EditCall :=
  { districtid := 1, geounit_ids := [10], geolevel := 1, version := 0 }

/-- The state after one successful demo edit on a fresh plan. -/
def demoSt1 : State :=
  (runCalls demoEnv 10 (create_plan 10 7) [demoCall]).getD
    { plan_version := 0, districts := [], computed := [], next_pk := 0 }

theorem C3_version_monotonicity_witness :
    demoSt1.plan_version = [demoCall].length ∧
      ∀ d ∈ demoSt1.districts, d.version ≤ [demoCall].length :=
  (C3_version_monotonicity demoEnv 10 7).2.2.2 [demoCall] demoSt1 rfl

/-! ### C10: the implicit precondition on the target district -/

theorem add_carried_succeeds {M pv : Nat} {district : District} {st : State}
    {fixed : Nat} (hplan : district.plan.isSome)
    (hdid : district.district_id ≠ 0) :
    ∃ st' f', add_carried M pv district st fixed = .ok (st', f') := by
  obtain ⟨p, hp⟩ := Option.isSome_iff_exists.mp hplan
  have hlat : is_latest_version district st.districts =
      .ok (decide (some district.version = maxVersion
        ((st.districts.filter (fun x => decide (x.plan = some p))).filter
          (fun x => decide (x.district_id = district.district_id))))) := by
    unfold is_latest_version
    rw [hp]
  unfold add_carried
  rw [hlat]
  simp only []
  by_cases hl : decide (some district.version = maxVersion
      ((st.districts.filter (fun x => decide (x.plan = some p))).filter
        (fun x => decide (x.district_id = district.district_id)))) = true
  · rw [if_pos hl]
    exact ⟨_, _, rfl⟩
  · rw [if_neg hl]
    simp only [save_district, set_district_id]
    simp [hdid]

theorem add_affected_succeeds {env : Env} {M pv : Nat} {gids : List Nat}
    {gl : Nat} {inc : Geometry} {district : District} {dg : Geometry}
    {st : State} {fixed : Nat} (hdid : district.district_id ≠ 0)
    (hgm : ∃ us, env.get_mixed gids gl district.geom true = .ok us) :
    ∃ st' f',
      add_affected env M pv gids gl inc district dg st fixed =
        .ok (st', f') := by
  obtain ⟨us, hus⟩ := hgm
  unfold add_affected
  rw [hus]
  simp only []
  by_cases hbranch :
      (!(enforce_multi1 (district_new_geom env dg inc)).isEmpty) = true
  · rw [if_pos hbranch]
    simp only [save_district, set_district_id]
    simp [hdid]
  · rw [if_neg hbranch]
    simp only [save_district, set_district_id]
    simp [hdid]

theorem add_target_succeeds {env : Env} {M : Nat} {st : State} {fixed : Nat}
    {target : District} {gids : List Nat} {gl : Nat} {inc : Geometry}
    {pv : Nat} (hdid : target.district_id ≠ 0)
    (hgm : ∃ us, env.get_mixed gids gl target.geom false = .ok us) :
    ∃ st' n,
      add_target env M st fixed target gids gl inc pv = (st', .ok n) := by
  obtain ⟨us, hus⟩ := hgm
  unfold add_target
  rw [hus]
  simp only []
  cases hng : target_new_geom env target.geom inc with
  | some g =>
      simp only []
      by_cases ht : g.truthy = true
      · simp only [save_district, set_district_id]
        simp [ht, hdid]
      · simp only [save_district, set_district_id]
        simp [ht, hdid]
  | none =>
      simp only []
      simp only [save_district, set_district_id]
      simp [hdid]

theorem add_geounits_loop_succeeds (env : Env) (M districtid : Nat)
    (gids : List Nat) (gl : Nat) (inc : Geometry) (pv : Nat)
    (l : List District) :
    ∀ acc : AddAcc,
    (∀ d ∈ l, d.plan.isSome ∧ d.district_id ≠ 0) →
    (∀ (ids : List Nat) (glv : Nat) (b : Option Geometry) (i : Bool),
      ∃ us, env.get_mixed ids glv b i = .ok us) →
    ∃ acc',
      add_geounits_loop env M districtid gids gl inc pv l acc = .ok acc' ∧
      ((∀ d ∈ l, d.district_id ≠ districtid) → acc'.target = acc.target) ∧
      ((∃ d ∈ l, d.district_id = districtid) →
        ∃ t ∈ l, t.district_id = districtid ∧ acc'.target = some t) := by
  induction l with
  | nil =>
      intro acc h1 h2
      exact ⟨acc, rfl, fun _ => rfl, by simp⟩
  | cons district rest ih =>
      intro acc h1 h2
      have hd1 := h1 district (List.mem_cons_self _ _)
      have h1' : ∀ d ∈ rest, d.plan.isSome ∧ d.district_id ≠ 0 :=
        fun d hd' => h1 d (List.mem_cons_of_mem _ hd')
      simp only [add_geounits_loop]
      by_cases hd : district.district_id = districtid
      · rw [if_pos hd]
        obtain ⟨acc', hrun, hpres, hbind⟩ :=
          ih { acc with target := some district } h1' h2
        refine ⟨acc', hrun, ?_, ?_⟩
        · intro hnone
          exact absurd hd (hnone district (List.mem_cons_self _ _))
        · intro _
          by_cases hrest : ∃ d ∈ rest, d.district_id = districtid
          · obtain ⟨t, htmem, htdid, hteq⟩ := hbind hrest
            exact ⟨t, List.mem_cons_of_mem _ htmem, htdid, hteq⟩
          · have hnone : ∀ d ∈ rest, d.district_id ≠ districtid :=
              fun d hd' heq => hrest ⟨d, hd', heq⟩
            refine ⟨district, List.mem_cons_self _ _, hd, ?_⟩
            rw [hpres hnone]
      · rw [if_neg hd]
        have hstep : ∃ st1 f1, (match district.geom with
            | some dg =>
                if dg.truthy &&
                    (env.overlaps dg inc || env.containsG dg inc) then
                  add_affected env M pv gids gl inc district dg acc.st acc.fixed
                else add_carried M pv district acc.st acc.fixed
            | none => add_carried M pv district acc.st acc.fixed) =
            .ok (st1, f1) := by
          cases hg : district.geom with
          | none =>
              exact add_carried_succeeds hd1.1 hd1.2
          | some dg =>
              simp only []
              by_cases hc : (dg.truthy &&
                  (env.overlaps dg inc || env.containsG dg inc)) = true
              · rw [if_pos hc]
                exact add_affected_succeeds hd1.2 (h2 gids gl district.geom true)
              · rw [if_neg hc]
                exact add_carried_succeeds hd1.1 hd1.2
        obtain ⟨st1, f1, hstep⟩ := hstep
        rw [hstep]
        simp only []
        obtain ⟨acc', hrun, hpres, hbind⟩ :=
          ih { st := st1, fixed := f1, target := acc.target } h1' h2
        refine ⟨acc', hrun, ?_, ?_⟩
        · intro hnone
          exact hpres fun d hd' => hnone d (List.mem_cons_of_mem _ hd')
        · intro hex
          have hrest : ∃ d ∈ rest, d.district_id = districtid := by
            obtain ⟨d, hdm, hde⟩ := hex
            rcases List.mem_cons.mp hdm with rfl | hdm
            · exact absurd hde hd
            · exact ⟨d, hdm, hde⟩
          obtain ⟨t, htmem, htdid, hteq⟩ := hbind hrest
          exact ⟨t, List.mem_cons_of_mem _ htmem, htdid, hteq⟩

/-- A plan state with district 2 at versions 0 and 1 and no district 5:
requesting target 5 at version 0 leaves `target` unbound. -/
def rowC10a : District :=
  { id := 1
    district_id := 2
    name := "District 2"
    plan := some 7
    geom := none
    simple := none
    version := 0 }

def rowC10b : District := { rowC10a with id := 2, version := 1 }

def stC10 : State :=
  { plan_version := 1
    districts := [rowC10a, rowC10b]
    computed := []
    next_pk := 3 }

/-- C10: `add_geounits` implicitly requires the requested target id to be
present among the districts resolved at the requested version.  When it is
absent, the operation raises `UnboundLocalError` at the first use of
`target`, *after* non-target districts may already have been snapshotted
(the concrete run below saves one carried-forward copy first) but *before*
`plan.version` is incremented — so the edit is not atomic in that case.
When a matching district is present (and the engine capabilities behave),
the call returns normally. -/
theorem C10_target_precondition (env : Env) (M : Nat) (st : State)
    (districtid : Nat) (gids : List Nat) (gl v : Nat)
    (hinc : (env.unionagg gids).isSome)
    (hwf : ∀ d ∈ get_districts_at_version st.districts v,
      d.plan.isSome ∧ d.district_id ≠ 0)
    (hgm : ∀ (ids : List Nat) (glv : Nat) (b : Option Geometry) (i : Bool),
      ∃ us, env.get_mixed ids glv b i = .ok us) :
    ((∀ d ∈ get_districts_at_version st.districts v,
        d.district_id ≠ districtid) →
      (add_geounits env M st districtid gids gl v).2 =
        .error "UnboundLocalError: local variable 'target' referenced before assignment" ∧
      (add_geounits env M st districtid gids gl v).1.plan_version =
        st.plan_version ∧
      ∃ ext, (add_geounits env M st districtid gids gl v).1.districts =
        st.districts ++ ext) ∧
    ((∃ d ∈ get_districts_at_version st.districts v,
        d.district_id = districtid) →
      ∃ st' n, add_geounits env M st districtid gids gl v = (st', .ok n)) ∧
    ((add_geounits demoEnv 10 stC10 5 [10] 1 0).2 =
        .error "UnboundLocalError: local variable 'target' referenced before assignment" ∧
      (add_geounits demoEnv 10 stC10 5 [10] 1 0).1.plan_version =
        stC10.plan_version ∧
      (add_geounits demoEnv 10 stC10 5 [10] 1 0).1.districts.length =
        stC10.districts.length + 1) := by
  obtain ⟨inc, hu⟩ := Option.isSome_iff_exists.mp hinc
  obtain ⟨acc', hloop, hpres, hbind⟩ :=
    add_geounits_loop_succeeds env M districtid gids gl inc st.plan_version
      (get_districts_at_version st.districts v)
      { st := st, fixed := 0, target := none } hwf hgm
  have hred : add_geounits env M st districtid gids gl v =
      (match acc'.target with
        | none => (acc'.st, .error
            "UnboundLocalError: local variable 'target' referenced before assignment")
        | some target =>
            add_target env M acc'.st acc'.fixed target gids gl inc
              st.plan_version) := by
    unfold add_geounits
    rw [hu]
    simp only []
    rw [hloop]
  obtain ⟨hpv, ext1, hds, -⟩ := add_geounits_loop_run_ok _ _ _ hloop
  refine ⟨?_, ?_, ?_, ?_, ?_⟩
  · intro hnone
    have ht : acc'.target = none := hpres hnone
    rw [ht] at hred
    simp only [] at hred
    rw [hred]
    exact ⟨rfl, hpv, ext1, hds⟩
  · intro hex
    obtain ⟨t, htmem, htdid, hteq⟩ := hbind hex
    rw [hteq] at hred
    simp only [] at hred
    obtain ⟨st', n, htarget⟩ :=
      @add_target_succeeds env M acc'.st acc'.fixed t gids gl inc
        st.plan_version (show t.district_id ≠ 0 from (hwf t htmem).2)
        (hgm gids gl t.geom false)
    exact ⟨st', n, hred.trans htarget⟩
  · rfl
  · rfl
  · rfl

theorem C10_target_precondition_witness :
    (add_geounits demoEnv 10 stC10 5 [10] 1 0).2 =
      .error "UnboundLocalError: local variable 'target' referenced before assignment" ∧
    (add_geounits demoEnv 10 stC10 5 [10] 1 0).1.plan_version =
      stC10.plan_version ∧
    ∃ ext, (add_geounits demoEnv 10 stC10 5 [10] 1 0).1.districts =
      stC10.districts ++ ext :=
  (C10_target_precondition demoEnv 10 stC10 5 [10] 1 0 rfl (by decide)
    (fun ids glv b i => ⟨[], rfl⟩)).1 (by decide)

/-! ### C2: what the returned count actually counts -/

/-- Whether `delta_stats` would report a change for these geounits: some
Subject has matching Characteristic rows with a non-zero sum.  This
depends only on the reference data, not on the computed table. -/
def stats_changed (env : Env) (geounits : List GUnit) : Bool :=
  env.subjects.any (fun subject =>
    let rows := env.characteristics.filter
      (fun c => decide (c.subject = subject) &&
        geounits.any (fun g => decide (g.id = c.geounit)))
    !rows.isEmpty && !decide ((rows.map Characteristic.number).sum = 0))

theorem delta_stats_snd (env : Env) (self : Nat) (gus : List GUnit)
    (combine : Bool) (computed : List CChar) :
    (delta_stats env self gus combine computed).2 = stats_changed env gus := by
  unfold delta_stats stats_changed
  suffices h : ∀ (subjects : List Nat) (acc : List CChar × Bool),
      (subjects.foldl (fun acc subject =>
        let rows := env.characteristics.filter
          (fun c => decide (c.subject = subject) &&
            gus.any (fun g => decide (g.id = c.geounit)))
        let aggregate : Option Int :=
          if rows.isEmpty then none
          else some ((rows.map Characteristic.number).sum)
        match aggregate with
        | none => acc
        | some a =>
            if a = 0 then acc
            else
              match (acc.1.filter (fun c => decide (c.subject = subject) &&
                  decide (c.district = self))).head? with
              | some c0 =>
                  let n := if combine then c0.number + a else c0.number - a
                  (replaceCC subject self { c0 with number := n } acc.1, true)
              | none =>
                  let n : Int := if combine then 0 + a else 0 - a
                  let c' : CChar :=
                    { subject := subject, district := self, number := n }
                  (acc.1 ++ [c'], true)) acc).2 =
      (acc.2 || subjects.any (fun subject =>
        let rows := env.characteristics.filter
          (fun c => decide (c.subject = subject) &&
            gus.any (fun g => decide (g.id = c.geounit)))
        !rows.isEmpty && !decide ((rows.map Characteristic.number).sum = 0))) by
    rw [h env.subjects (computed, false)]
    simp
  intro subjects
  induction subjects with
  | nil => intro acc; simp
  | cons s rest ih =>
      intro acc
      simp only [List.foldl_cons, List.any_cons]
      rw [ih]
      by_cases hrows : (env.characteristics.filter
          (fun c => decide (c.subject = s) &&
            gus.any (fun g => decide (g.id = c.geounit)))).isEmpty
      · simp only [hrows, if_pos]
        simp [hrows]
      · simp only [hrows]
        by_cases hsum : ((env.characteristics.filter
            (fun c => decide (c.subject = s) &&
              gus.any (fun g => decide (g.id = c.geounit)))).map
              Characteristic.number).sum = 0
        · simp [hrows, hsum]
        · simp only [Bool.false_eq_true] at hrows
          cases hhead : ((acc.1.filter (fun c => decide (c.subject = s) &&
              decide (c.district = self))).head?) with
          | some c0 => simp [hrows, hsum, hhead, Bool.or_assoc]
          | none => simp [hrows, hsum, hhead, Bool.or_assoc]

/-- The overlap test of the district loop (models.py:450), as a predicate
of the district alone. -/
def affected_condition (env : Env) (inc : Geometry) (d : District) : Bool :=
  match d.geom with
  | none => false
  | some dg => dg.truthy && (env.overlaps dg inc || env.containsG dg inc)

/-- `is_latest_version` read as a boolean (its `NameError` branch never
fires for plan-attached districts). -/
def latestB (d : District) (ds : List District) : Bool :=
  match is_latest_version d ds with
  | .ok b => b
  | .error _ => true

/-- What one non-target district contributes to the returned count:
an affected district contributes 1 exactly when its removal delta changes
some statistic; an unaffected district contributes 1 exactly when it is
*not* the latest version of its `district_id` (the carried-forward
revert). -/
def district_contrib (env : Env)
    (gmf : List Nat → Nat → Option Geometry → Bool → List GUnit)
    (base : List District) (gids : List Nat) (gl : Nat) (inc : Geometry)
    (d : District) : Nat :=
  if affected_condition env inc d then
    if stats_changed env (gmf gids gl d.geom true) then 1 else 0
  else
    if latestB d base then 0 else 1

/-- What the target district contributes to the returned count: 1 exactly
when its new geometry is truthy *and* the addition delta changes some
statistic. -/
def target_contrib (env : Env)
    (gmf : List Nat → Nat → Option Geometry → Bool → List GUnit)
    (gids : List Nat) (gl : Nat) (inc : Geometry) (t : District) : Nat :=
  if geomTruthy (target_new_geom env t.geom inc) &&
      stats_changed env (gmf gids gl t.geom false) then 1 else 0

/-- Appending rows of other `district_id`s does not change the
latest-version check. -/
theorem is_latest_version_extend (d : District) (ds extra : List District)
    (hx : ∀ x ∈ extra, x.district_id ≠ d.district_id) :
    is_latest_version d (ds ++ extra) = is_latest_version d ds := by
  unfold is_latest_version
  cases hp : d.plan with
  | none => rfl
  | some p =>
      simp only []
      have hfe : ((extra.filter (fun x => decide (x.plan = some p))).filter
          (fun x => decide (x.district_id = d.district_id))) = [] := by
        rw [List.filter_eq_nil_iff]
        intro x hxmem
        have hxe : x ∈ extra := List.mem_of_mem_filter hxmem
        simp only [decide_eq_true_eq]
        exact hx x hxe
      rw [List.filter_append, List.filter_append, hfe, List.append_nil]

theorem mem_upsert {m : List (Nat × District)} {k : Nat} {v : District}
    {p : Nat × District} (h : p ∈ upsert m k v) : p ∈ m ∨ p = (k, v) := by
  induction m with
  | nil => simpa [upsert] using h
  | cons hd tl ih =>
      obtain ⟨k₀, v₀⟩ := hd
      simp only [upsert] at h
      split at h
      · rcases List.mem_cons.mp h with rfl | h
        · exact Or.inr rfl
        · exact Or.inl (List.mem_cons_of_mem _ h)
      · rcases List.mem_cons.mp h with rfl | h
        · exact Or.inl (List.mem_cons_self _ _)
        · rcases ih h with h | h
          · exact Or.inl (List.mem_cons_of_mem _ h)
          · exact Or.inr h

theorem entries_fold (V : Nat) (l : List District) :
    ∀ (m : List (Nat × District)),
    (∀ p ∈ m, (p.2 : District).district_id = p.1) →
    ∀ p ∈ l.foldl (fun m d => if d.version > V then m
      else upsert m d.district_id d) m,
      (p.2 : District).district_id = p.1 := by
  induction l with
  | nil => intro m hm; exact hm
  | cons hd tl ih =>
      intro m hm
      simp only [List.foldl_cons]
      by_cases hv : hd.version > V
      · rw [if_pos hv]; exact ih m hm
      · rw [if_neg hv]
        refine ih _ ?_
        intro p hp
        rcases mem_upsert hp with hp | hp
        · exact hm p hp
        · rw [hp]

/-- The snapshots returned by `get_districts_at_version` have pairwise
distinct `district_id`s. -/
theorem get_districts_pairwise_dids (ds : List District) (V : Nat) :
    (get_districts_at_version ds V).Pairwise
      (fun a b => a.district_id ≠ b.district_id) := by
  have hnd : (((ds.insertionSort sortVerLE).foldl
      (fun m d => if d.version > V then m else upsert m d.district_id d)
      []).map Prod.fst).Nodup := nodupKeys_foldl V _ [] (by simp)
  have hent := entries_fold V (ds.insertionSort sortVerLE) [] (by simp)
  show (((ds.insertionSort sortVerLE).foldl
      (fun m d => if d.version > V then m else upsert m d.district_id d)
      []).map Prod.snd).Pairwise (fun a b => a.district_id ≠ b.district_id)
  rw [List.pairwise_map]
  have hkeys : (((ds.insertionSort sortVerLE).foldl
      (fun m d => if d.version > V then m else upsert m d.district_id d)
      [])).Pairwise (fun p q => p.1 ≠ q.1) := by
    rw [← List.pairwise_map (f := Prod.fst)]
    exact hnd
  refine hkeys.imp_of_mem ?_
  intro p q hp hq hne
  rw [hent p hp, hent q hq]
  exact hne

theorem add_carried_eq_latest {M pv : Nat} {district : District} {st : State}
    {fixed : Nat}
    (hlat : is_latest_version district st.districts = .ok true) :
    add_carried M pv district st fixed = .ok (st, fixed) := by
  unfold add_carried
  rw [hlat]
  rfl

theorem add_carried_eq_stale {M pv : Nat} {district : District} {st : State}
    {fixed : Nat} (hdid : district.district_id ≠ 0)
    (hlat : is_latest_version district st.districts = .ok false) :
    add_carried M pv district st fixed = .ok
      (clone_characteristics_from
        { st with
            districts := st.districts ++
              [{ district with version := pv + 1, id := st.next_pk }]
            next_pk := st.next_pk + 1 }
        st.next_pk district.id, fixed + 1) := by
  unfold add_carried
  rw [hlat]
  simp only []
  rw [save_district_truthy
    (show ({ district with version := pv + 1, id := 0 } : District).district_id ≠ 0
      from hdid) rfl]
  rfl

theorem add_affected_analysis {env : Env} {M pv : Nat} {gids : List Nat}
    {gl : Nat} {inc : Geometry} {district : District} {dg : Geometry}
    {st : State} {fixed : Nat} {G : List GUnit}
    (hdid : district.district_id ≠ 0)
    (hgmi : env.get_mixed gids gl district.geom true = .ok G) :
    ∃ st', add_affected env M pv gids gl inc district dg st fixed =
      .ok (st', fixed + (if stats_changed env G then 1 else 0)) ∧
      ∃ copy, st'.districts = st.districts ++ [copy] ∧
        copy.district_id = district.district_id ∧ copy.version = pv + 1 := by
  unfold add_affected
  rw [hgmi]
  simp only []
  by_cases hbranch :
      (!(enforce_multi1 (district_new_geom env dg inc)).isEmpty) = true
  · rw [if_pos hbranch]
    rw [save_district_truthy
      (show ({ district with
          geom := some (enforce_multi1 (district_new_geom env dg inc))
          simple := some (enforce_multi1 (env.simplifyG
            (enforce_multi1 (district_new_geom env dg inc))))
          version := pv + 1
          id := 0 } : District).district_id ≠ 0 from hdid) rfl]
    simp only []
    rw [delta_stats_snd]
    by_cases hsc : stats_changed env G = true
    · rw [if_pos hsc, if_pos hsc]
      exact ⟨_, rfl, _, rfl, rfl, rfl⟩
    · rw [if_neg hsc, if_neg hsc]
      exact ⟨_, rfl, _, rfl, rfl, rfl⟩
  · rw [if_neg hbranch]
    rw [save_district_truthy
      (show ({ district with
          geom := (none : Option Geometry)
          simple := (none : Option Geometry)
          version := pv + 1
          id := 0 } : District).district_id ≠ 0 from hdid) rfl]
    simp only []
    rw [delta_stats_snd]
    by_cases hsc : stats_changed env G = true
    · rw [if_pos hsc, if_pos hsc]
      exact ⟨_, rfl, _, rfl, rfl, rfl⟩
    · rw [if_neg hsc, if_neg hsc]
      exact ⟨_, rfl, _, rfl, rfl, rfl⟩

theorem add_target_analysis {env : Env} {M : Nat} {st : State} {fixed : Nat}
    {target : District} {gids : List Nat} {gl : Nat} {inc : Geometry}
    {pv : Nat} {G : List GUnit} (hdid : target.district_id ≠ 0)
    (hgmi : env.get_mixed gids gl target.geom false = .ok G) :
    ∃ st', add_target env M st fixed target gids gl inc pv =
      (st', .ok (fixed +
        (if geomTruthy (target_new_geom env target.geom inc) &&
            stats_changed env G then 1 else 0))) := by
  unfold add_target
  rw [hgmi]
  simp only []
  cases hng : target_new_geom env target.geom inc with
  | some g =>
      simp only []
      by_cases ht : g.truthy = true
      · rw [if_pos ht]
        rw [save_district_truthy
          (show ({ target with
              geom := some g
              simple := some (enforce_multi1 (env.simplifyG g))
              version := pv + 1
              id := 0 } : District).district_id ≠ 0 from hdid) rfl]
        simp only []
        rw [delta_stats_snd]
        by_cases hsc : stats_changed env G = true
        · simp [geomTruthy, ht, hsc]
        · simp [geomTruthy, ht, hsc]
      · rw [if_neg ht]
        rw [save_district_truthy
          (show ({ target with
              geom := some g
              simple := (none : Option Geometry)
              version := pv + 1
              id := 0 } : District).district_id ≠ 0 from hdid) rfl]
        simp only []
        simp [geomTruthy, ht]
  | none =>
      simp only []
      rw [save_district_truthy
        (show ({ target with
            geom := (none : Option Geometry)
            simple := (none : Option Geometry)
            version := pv + 1
            id := 0 } : District).district_id ≠ 0 from hdid) rfl]
      simp only []
      simp [geomTruthy]

theorem is_latest_version_eq_latestB {district : District}
    {base : List District} (hplan : district.plan.isSome) :
    is_latest_version district base = .ok (latestB district base) := by
  obtain ⟨p, hp⟩ := Option.isSome_iff_exists.mp hplan
  unfold latestB
  cases h : is_latest_version district base with
  | ok b => rfl
  | error e =>
      exfalso
      unfold is_latest_version at h
      rw [hp] at h
      simp only [] at h
      exact absurd h (by simp)

/-- The carried-forward step, with its exact `fixed` contribution measured
against the base district table. -/
theorem carried_step_count {M pv : Nat} {district : District} {st : State}
    {fixed : Nat} {base extra : List District}
    (hdid : district.district_id ≠ 0) (hplan : district.plan.isSome)
    (hds : st.districts = base ++ extra)
    (hx : ∀ x ∈ extra, x.district_id ≠ district.district_id) :
    ∃ st', add_carried M pv district st fixed =
      .ok (st', fixed + (if latestB district base then 0 else 1)) ∧
      ∃ ext2, st'.districts = st.districts ++ ext2 ∧
        ∀ x ∈ ext2, x.district_id = district.district_id := by
  have hil : is_latest_version district st.districts =
      is_latest_version district base := by
    rw [hds]
    exact is_latest_version_extend district base extra hx
  have hlat2 := @is_latest_version_eq_latestB district base hplan
  by_cases hbd : latestB district base = true
  · have hl : is_latest_version district st.districts = .ok true := by
      rw [hil, hlat2, hbd]
    rw [add_carried_eq_latest hl, hbd]
    exact ⟨st, by simp, [], by simp, by simp⟩
  · have hbd' : latestB district base = false := by
      simpa using hbd
    have hl : is_latest_version district st.districts = .ok false := by
      rw [hil, hlat2, hbd']
    rw [add_carried_eq_stale hdid hl, hbd']
    refine ⟨_, rfl, [{ district with version := pv + 1, id := st.next_pk }],
      rfl, ?_⟩
    intro x hxm
    rcases List.mem_singleton.mp hxm with rfl
    rfl

/-- The district loop, with the exact count it accumulates: each
non-target district contributes `district_contrib` (measured against the
base table, which the loop's own inserts do not disturb), and the target
binding behaves as in `add_geounits_loop_succeeds`. -/
theorem add_geounits_loop_count (env : Env)
    (gmf : List Nat → Nat → Option Geometry → Bool → List GUnit)
    (M districtid : Nat) (gids : List Nat) (gl : Nat) (inc : Geometry)
    (pv : Nat) (base : List District)
    (hgm : ∀ (ids : List Nat) (glv : Nat) (b : Option Geometry) (i : Bool),
      env.get_mixed ids glv b i = .ok (gmf ids glv b i)) :
    ∀ (l : List District) (acc : AddAcc),
    (∀ d ∈ l, d.plan.isSome ∧ d.district_id ≠ 0) →
    l.Pairwise (fun a b => a.district_id ≠ b.district_id) →
    (∃ extra, acc.st.districts = base ++ extra ∧
      ∀ x ∈ extra, ∀ d ∈ l, x.district_id ≠ d.district_id) →
    ∃ acc',
      add_geounits_loop env M districtid gids gl inc pv l acc = .ok acc' ∧
      acc'.fixed = acc.fixed +
        ((l.filter (fun d => !decide (d.district_id = districtid))).map
          (district_contrib env gmf base gids gl inc)).sum ∧
      ((∀ d ∈ l, d.district_id ≠ districtid) → acc'.target = acc.target) ∧
      ((∃ d ∈ l, d.district_id = districtid) →
        ∃ t ∈ l, t.district_id = districtid ∧ acc'.target = some t) := by
  intro l
  induction l with
  | nil =>
      intro acc hwf hpw hextra
      exact ⟨acc, rfl, by simp, fun _ => rfl, by simp⟩
  | cons district rest ih =>
      intro acc hwf hpw hextra
      have hd1 := hwf district (List.mem_cons_self _ _)
      have hwf' : ∀ d ∈ rest, d.plan.isSome ∧ d.district_id ≠ 0 :=
        fun d hd' => hwf d (List.mem_cons_of_mem _ hd')
      rw [List.pairwise_cons] at hpw
      obtain ⟨extra, hacc, hxd⟩ := hextra
      simp only [add_geounits_loop]
      by_cases hd : district.district_id = districtid
      · rw [if_pos hd]
        obtain ⟨acc', hrun, hfix, hpres, hbind⟩ :=
          ih { acc with target := some district } hwf' hpw.2
            ⟨extra, hacc, fun x hxm d hd' =>
              hxd x hxm d (List.mem_cons_of_mem _ hd')⟩
        refine ⟨acc', hrun, ?_, ?_, ?_⟩
        · rw [hfix]
          simp [List.filter_cons, hd]
        · intro hnone
          exact absurd hd (hnone district (List.mem_cons_self _ _))
        · intro _
          by_cases hrest : ∃ d ∈ rest, d.district_id = districtid
          · obtain ⟨t, htmem, htdid, hteq⟩ := hbind hrest
            exact ⟨t, List.mem_cons_of_mem _ htmem, htdid, hteq⟩
          · have hnone : ∀ d ∈ rest, d.district_id ≠ districtid :=
              fun d hd' heq => hrest ⟨d, hd', heq⟩
            refine ⟨district, List.mem_cons_self _ _, hd, ?_⟩
            rw [hpres hnone]
      · rw [if_neg hd]
        have hxhead : ∀ x ∈ extra, x.district_id ≠ district.district_id :=
          fun x hxm => hxd x hxm district (List.mem_cons_self _ _)
        have hcontrib : ∃ st1 cv, (match district.geom with
            | some dg =>
                if dg.truthy &&
                    (env.overlaps dg inc || env.containsG dg inc) then
                  add_affected env M pv gids gl inc district dg acc.st acc.fixed
                else add_carried M pv district acc.st acc.fixed
            | none => add_carried M pv district acc.st acc.fixed) =
              .ok (st1, acc.fixed + cv) ∧
            cv = district_contrib env gmf base gids gl inc district ∧
            ∃ ext2, st1.districts = acc.st.districts ++ ext2 ∧
              ∀ x ∈ ext2, x.district_id = district.district_id := by
          cases hg : district.geom with
          | none =>
              simp only []
              obtain ⟨st1, heq, ext2, hext2⟩ :=
                carried_step_count hd1.2 hd1.1 hacc hxhead
              refine ⟨st1, _, heq, ?_, ext2, hext2⟩
              unfold district_contrib affected_condition
              rw [hg]
              rfl
          | some dg =>
              simp only []
              by_cases hc : (dg.truthy &&
                  (env.overlaps dg inc || env.containsG dg inc)) = true
              · rw [if_pos hc]
                obtain ⟨st1, heq, copy, hcds, hcdid, hcver⟩ :=
                  add_affected_analysis hd1.2 (hgm gids gl district.geom true)
                refine ⟨st1, _, heq, ?_, [copy], hcds, ?_⟩
                · unfold district_contrib affected_condition
                  rw [hg]
                  simp only []
                  simp [hc]
                · intro x hxm
                  rcases List.mem_singleton.mp hxm with rfl
                  exact hcdid
              · rw [if_neg hc]
                obtain ⟨st1, heq, ext2, hext2⟩ :=
                  carried_step_count hd1.2 hd1.1 hacc hxhead
                refine ⟨st1, _, heq, ?_, ext2, hext2⟩
                unfold district_contrib affected_condition
                rw [hg]
                simp only []
                have hcf : (dg.truthy &&
                    (env.overlaps dg inc || env.containsG dg inc)) = false := by
                  simpa using hc
                simp [hcf]
        obtain ⟨st1, cv, hstepeq, hcv, ext2, hst1ds, hext2did⟩ := hcontrib
        rw [hstepeq]
        simp only []
        have hpre2 : ∃ e2, st1.districts = base ++ e2 ∧
            ∀ x ∈ e2, ∀ d ∈ rest, x.district_id ≠ d.district_id := by
          refine ⟨extra ++ ext2, ?_, ?_⟩
          · rw [hst1ds, hacc, List.append_assoc]
          · intro x hxm d hdm
            rcases List.mem_append.mp hxm with hxm | hxm
            · exact hxd x hxm d (List.mem_cons_of_mem _ hdm)
            · rw [hext2did x hxm]
              exact hpw.1 d hdm
        obtain ⟨acc', hrun, hfix, hpres, hbind⟩ :=
          ih { st := st1, fixed := acc.fixed + cv, target := acc.target }
            hwf' hpw.2 hpre2
        refine ⟨acc', hrun, ?_, ?_, ?_⟩
        · rw [hfix]
          have hpd : (!decide (district.district_id = districtid)) = true := by
            simp [hd]
          simp only [List.filter_cons, hpd, if_true, List.map_cons,
            List.sum_cons]
          rw [hcv]
          show acc.fixed + district_contrib env gmf base gids gl inc district +
              ((rest.filter (fun d => !decide (d.district_id = districtid))).map
                (district_contrib env gmf base gids gl inc)).sum =
            acc.fixed + (district_contrib env gmf base gids gl inc district +
              ((rest.filter (fun d => !decide (d.district_id = districtid))).map
                (district_contrib env gmf base gids gl inc)).sum)
          omega
        · intro hnone
          exact hpres fun d hd' => hnone d (List.mem_cons_of_mem _ hd')
        · intro hex
          have hrest : ∃ d ∈ rest, d.district_id = districtid := by
            obtain ⟨d, hdm, hde⟩ := hex
            rcases List.mem_cons.mp hdm with rfl | hdm
            · exact absurd hde hd
            · exact ⟨d, hdm, hde⟩
          obtain ⟨t, htmem, htdid, hteq⟩ := hbind hrest
          exact ⟨t, List.mem_cons_of_mem _ htmem, htdid, hteq⟩

/-- A state exercising the carried-forward branch: a target district (id 1)
whose geometry the demo union leaves unchanged, and a second district whose
version-0 snapshot is stale (a version-1 sibling exists), holding no
geometry and so never affected. -/
def rowC2t : District :=
  { id := 1
    district_id := 1
    name := "District 1"
    plan := some 1
    geom := some demoGeom
    simple := some demoGeom
    version := 0 }

def rowC2a : District :=
  { id := 2
    district_id := 2
    name := "District 2"
    plan := some 1
    geom := none
    simple := none
    version := 0 }

def rowC2b : District := { rowC2a with id := 3, version := 1 }

def stC2 : State :=
  { plan_version := 1
    districts := [rowC2t, rowC2a, rowC2b]
    computed := []
    next_pk := 4 }

/-- C2, counterexample: editing at version 0 in `stC2` returns count 1 even
though no snapshot reflects a geometric or statistical change.  The two new
snapshots equal `rowC2a` and `rowC2t` up to pk and version (the computed
table stays empty), yet the merely carried-forward district 2 — never
"affected", with no geometry at all — is the one counted
(`fixed += 1` at models.py:466 sits in the carried-forward branch). -/
theorem C2_carried_forward_counted :
    (add_geounits demoEnv 10 stC2 1 [10] 1 0).2 = .ok 1 ∧
    (add_geounits demoEnv 10 stC2 1 [10] 1 0).1.districts =
      stC2.districts ++
        [{ rowC2a with version := 2, id := 4 },
         { rowC2t with version := 2, id := 5 }] ∧
    (add_geounits demoEnv 10 stC2 1 [10] 1 0).1.computed = stC2.computed ∧
    affected_condition demoEnv demoGeom rowC2a = false ∧
    stats_changed demoEnv [] = false :=
  ⟨rfl, rfl, rfl, rfl, rfl⟩

/-- C2, amended: when every district resolved at the requested version is
plan-attached with a nonzero `district_id` and one of them matches the
requested target id, `add_geounits` succeeds and returns the sum over the
non-target districts of `district_contrib` — 1 for an affected district
whose removal delta changes a statistic, 1 for an unaffected district that
is *not* the latest version of its `district_id` (the carried-forward
copy, counted by models.py:466 despite being unchanged), 0 otherwise —
plus `target_contrib`: 1 exactly when the target's new geometry is truthy
and the addition delta changes a statistic. -/
theorem C2_returned_count (env : Env)
    (gmf : List Nat → Nat → Option Geometry → Bool → List GUnit)
    (M : Nat) (st : State) (districtid : Nat) (gids : List Nat) (gl : Nat)
    (V : Nat) (inc : Geometry)
    (hu : env.unionagg gids = some inc)
    (hgm : ∀ (ids : List Nat) (glv : Nat) (b : Option Geometry) (i : Bool),
      env.get_mixed ids glv b i = .ok (gmf ids glv b i))
    (hwf : ∀ d ∈ get_districts_at_version st.districts V,
      d.plan.isSome ∧ d.district_id ≠ 0)
    (hex : ∃ d ∈ get_districts_at_version st.districts V,
      d.district_id = districtid) :
    ∃ st' t, t ∈ get_districts_at_version st.districts V ∧
      t.district_id = districtid ∧
      add_geounits env M st districtid gids gl V = (st', .ok
        ((((get_districts_at_version st.districts V).filter
            (fun d => !decide (d.district_id = districtid))).map
          (district_contrib env gmf st.districts gids gl inc)).sum +
          target_contrib env gmf gids gl inc t)) := by
  obtain ⟨acc', hrun, hfix, hpres, hbind⟩ :=
    add_geounits_loop_count env gmf M districtid gids gl inc st.plan_version
      st.districts hgm (get_districts_at_version st.districts V)
      { st := st, fixed := 0, target := none } hwf
      (get_districts_pairwise_dids st.districts V)
      ⟨[], by simp, by simp⟩
  obtain ⟨t, htm, htd, hteq⟩ := hbind hex
  obtain ⟨st', htar⟩ :=
    @add_target_analysis env M acc'.st acc'.fixed t gids gl inc
      st.plan_version (gmf gids gl t.geom false) (hwf t htm).2
      (hgm gids gl t.geom false)
  refine ⟨st', t, htm, htd, ?_⟩
  unfold add_geounits
  rw [hu]
  simp only []
  rw [hrun]
  simp only []
  rw [hteq]
  simp only []
  rw [htar, hfix]
  unfold target_contrib
  simp [Nat.zero_add]

theorem C2_returned_count_witness :
    (∃ d ∈ get_districts_at_version stC2.districts 0, d.district_id = 1) ∧
    ∃ st' t, t ∈ get_districts_at_version stC2.districts 0 ∧
      t.district_id = 1 ∧
      add_geounits demoEnv 10 stC2 1 [10] 1 0 = (st', .ok
        ((((get_districts_at_version stC2.districts 0).filter
            (fun d => !decide (d.district_id = 1))).map
          (district_contrib demoEnv (fun _ _ _ _ => []) stC2.districts
            [10] 1 demoGeom)).sum +
          target_contrib demoEnv (fun _ _ _ _ => []) [10] 1 demoGeom t)) := by
  have hmem : rowC2t ∈ get_districts_at_version stC2.districts 0 :=
    List.mem_cons_self _ _
  have hwf : ∀ d ∈ get_districts_at_version stC2.districts 0,
      d.plan.isSome ∧ d.district_id ≠ 0 := by
    intro d hd
    have hd2 : d = rowC2t ∨ d = rowC2a := by
      have hd1 : d ∈ [rowC2t, rowC2a] := hd
      simpa using hd1
    rcases hd2 with rfl | rfl
    · exact ⟨rfl, by decide⟩
    · exact ⟨rfl, by decide⟩
  exact ⟨⟨rowC2t, hmem, rfl⟩,
    C2_returned_count demoEnv (fun _ _ _ _ => []) 10 stC2 1 [10] 1 0 demoGeom
      rfl (fun _ _ _ _ => rfl) hwf ⟨rowC2t, hmem, rfl⟩⟩

/-! ### C4: the statistics delta -/

/-- The per-subject aggregate `delta_stats` computes: the sum of the
`number`s of the Characteristic rows matching the subject and one of the
geounits (models.py:672). -/
def aggOf (env : Env) (gus : List GUnit) (s : Nat) : Int :=
  ((env.characteristics.filter
    (fun c => decide (c.subject = s) &&
      gus.any (fun g => decide (g.id = c.geounit)))).map
    Characteristic.number).sum

/-- Whether the subject has matching Characteristic rows with a non-zero
sum — exactly when `delta_stats` touches its computed row (the `if
aggregate:` guard, models.py:674, `Decimal(0)` and `None` both falsy). -/
def contributes (env : Env) (gus : List GUnit) (s : Nat) : Bool :=
  let rows := env.characteristics.filter
    (fun c => decide (c.subject = s) &&
      gus.any (fun g => decide (g.id = c.geounit)))
  !rows.isEmpty && !decide ((rows.map Characteristic.number).sum = 0)

/-- The computed-characteristic value of `(subject, district)` as
`delta_stats` reads it: the first matching row, `0` when absent. -/
def ccNum (computed : List CChar) (s d : Nat) : Int :=
  match (computed.filter (fun c => decide (c.subject = s) &&
      decide (c.district = d))).head? with
  | some c => c.number
  | none => 0

/-- One iteration of the `for subject in Subject.objects.all():` loop of
`delta_stats` (models.py:670-688). -/
def deltaStep (env : Env) (self_pk : Nat) (geounits : List GUnit)
    (combine : Bool) (acc : List CChar × Bool) (subject : Nat) :
    List CChar × Bool :=
  let rows := env.characteristics.filter
    (fun c => decide (c.subject = subject) &&
      geounits.any (fun g => decide (g.id = c.geounit)))
  let aggregate : Option Int :=
    if rows.isEmpty then none
    else some ((rows.map Characteristic.number).sum)
  match aggregate with
  | none => acc
  | some a =>
      if a = 0 then acc
      else
        match (acc.1.filter (fun c => decide (c.subject = subject) &&
            decide (c.district = self_pk))).head? with
        | some c0 =>
            let n := if combine then c0.number + a else c0.number - a
            (replaceCC subject self_pk { c0 with number := n } acc.1, true)
        | none =>
            let n : Int := if combine then 0 + a else 0 - a
            let c' : CChar :=
              { subject := subject, district := self_pk, number := n }
            (acc.1 ++ [c'], true)

theorem delta_stats_eq_fold (env : Env) (self_pk : Nat) (gus : List GUnit)
    (combine : Bool) (computed : List CChar) :
    delta_stats env self_pk gus combine computed =
      env.subjects.foldl (deltaStep env self_pk gus combine)
        (computed, false) := rfl

theorem head_filter_true {q : CChar → Bool} {l : List CChar} {c0 : CChar}
    (h : (l.filter q).head? = some c0) : q c0 = true := by
  have hmem : c0 ∈ l.filter q := by
    cases hf : l.filter q with
    | nil => rw [hf] at h; cases h
    | cons a tl =>
        rw [hf] at h
        simp only [List.head?_cons, Option.some.injEq] at h
        rw [h]
        exact List.mem_cons_self _ _
  exact List.of_mem_filter hmem

theorem filter_replaceCC (s self_pk : Nat) (c' : CChar) (t : List CChar)
    (q : CChar → Bool)
    (hq : ∀ c : CChar, c.subject = s → c.district = self_pk → q c = false)
    (hc' : q c' = false) :
    (replaceCC s self_pk c' t).filter q = t.filter q := by
  induction t with
  | nil => rfl
  | cons c rest ih =>
      unfold replaceCC
      by_cases hc : c.subject = s ∧ c.district = self_pk
      · rw [if_pos hc]
        simp [List.filter_cons, hc', hq c hc.1 hc.2]
      · rw [if_neg hc]
        simp [List.filter_cons, ih]

theorem head_filter_replaceCC (s self_pk : Nat) (c' : CChar)
    (t : List CChar) (hs : c'.subject = s) (hd : c'.district = self_pk)
    (hne : ((t.filter (fun c => decide (c.subject = s) &&
        decide (c.district = self_pk))).head?).isSome) :
    ((replaceCC s self_pk c' t).filter (fun c => decide (c.subject = s) &&
        decide (c.district = self_pk))).head? = some c' := by
  induction t with
  | nil => simp at hne
  | cons c rest ih =>
      unfold replaceCC
      by_cases hc : c.subject = s ∧ c.district = self_pk
      · rw [if_pos hc]
        simp [List.filter_cons, hs, hd]
      · rw [if_neg hc]
        have hqc : (decide (c.subject = s) &&
            decide (c.district = self_pk)) = false := by
          rcases not_and_or.mp hc with h | h <;> simp [h]
        simp only [List.filter_cons, hqc, Bool.false_eq_true, if_false]
          at hne ⊢
        exact ih hne

theorem deltaStep_untouched {env : Env} {self_pk : Nat} {gus : List GUnit}
    {combine : Bool} {acc : List CChar × Bool} {s : Nat}
    (hnc : contributes env gus s = false) :
    (deltaStep env self_pk gus combine acc s).1 = acc.1 := by
  unfold contributes at hnc
  simp only [] at hnc
  unfold deltaStep
  by_cases hrows : (env.characteristics.filter
      (fun c => decide (c.subject = s) &&
        gus.any (fun g => decide (g.id = c.geounit)))).isEmpty
  · simp [hrows]
  · have hsum : ((env.characteristics.filter
        (fun c => decide (c.subject = s) &&
          gus.any (fun g => decide (g.id = c.geounit)))).map
        Characteristic.number).sum = 0 := by
      rcases Bool.and_eq_false_iff.mp hnc with h | h
      · exact absurd (by simpa using h) hrows
      · simpa using h
    simp [hrows, hsum]

theorem deltaStep_self {env : Env} {self_pk : Nat} {gus : List GUnit}
    {combine : Bool} {acc : List CChar × Bool} {s : Nat}
    (hc : contributes env gus s = true) :
    ccNum (deltaStep env self_pk gus combine acc s).1 s self_pk =
      if combine then ccNum acc.1 s self_pk + aggOf env gus s
      else ccNum acc.1 s self_pk - aggOf env gus s := by
  unfold contributes at hc
  simp only [] at hc
  obtain ⟨hrows, hsum⟩ := Bool.and_eq_true_iff.mp hc
  have hrows' : (env.characteristics.filter
      (fun c => decide (c.subject = s) &&
        gus.any (fun g => decide (g.id = c.geounit)))).isEmpty = false := by
    simpa using hrows
  have hsum' : ¬(((env.characteristics.filter
      (fun c => decide (c.subject = s) &&
        gus.any (fun g => decide (g.id = c.geounit)))).map
      Characteristic.number).sum = 0) := by
    simpa using hsum
  unfold deltaStep
  simp only [hrows', Bool.false_eq_true, if_false]
  rw [if_neg hsum']
  cases hh : ((acc.1.filter (fun c => decide (c.subject = s) &&
      decide (c.district = self_pk))).head?) with
  | some c0 =>
      simp only []
      have hq := head_filter_true hh
      obtain ⟨hcs, hcd⟩ := Bool.and_eq_true_iff.mp hq
      have hhead := head_filter_replaceCC s self_pk
        { c0 with number := if combine then c0.number + ((env.characteristics.filter
            (fun c => decide (c.subject = s) &&
              gus.any (fun g => decide (g.id = c.geounit)))).map
            Characteristic.number).sum
          else c0.number - ((env.characteristics.filter
            (fun c => decide (c.subject = s) &&
              gus.any (fun g => decide (g.id = c.geounit)))).map
            Characteristic.number).sum }
        acc.1 (by simpa using hcs) (by simpa using hcd)
        (by rw [hh]; rfl)
      unfold ccNum
      rw [hhead, hh]
      unfold aggOf
      cases combine <;> simp
  | none =>
      simp only []
      have hfe : acc.1.filter (fun c => decide (c.subject = s) &&
          decide (c.district = self_pk)) = [] := by
        cases hf : acc.1.filter (fun c => decide (c.subject = s) &&
            decide (c.district = self_pk)) with
        | nil => rfl
        | cons a tl => rw [hf] at hh; cases hh
      unfold ccNum
      rw [List.filter_append, hfe]
      unfold aggOf
      cases combine <;> simp

theorem deltaStep_other {env : Env} {self_pk : Nat} {gus : List GUnit}
    {combine : Bool} {acc : List CChar × Bool} {s : Nat} (s' d : Nat)
    (h : s' ≠ s ∨ d ≠ self_pk) :
    (deltaStep env self_pk gus combine acc s).1.filter
      (fun c => decide (c.subject = s') && decide (c.district = d)) =
    acc.1.filter
      (fun c => decide (c.subject = s') && decide (c.district = d)) := by
  unfold deltaStep
  by_cases hrows : (env.characteristics.filter
      (fun c => decide (c.subject = s) &&
        gus.any (fun g => decide (g.id = c.geounit)))).isEmpty
  · simp [hrows]
  · have hrows' : (env.characteristics.filter
        (fun c => decide (c.subject = s) &&
          gus.any (fun g => decide (g.id = c.geounit)))).isEmpty = false := by
      simpa using hrows
    simp only [hrows', Bool.false_eq_true, if_false]
    by_cases hsum : ((env.characteristics.filter
        (fun c => decide (c.subject = s) &&
          gus.any (fun g => decide (g.id = c.geounit)))).map
        Characteristic.number).sum = 0
    · rw [if_pos hsum]
    · rw [if_neg hsum]
      have hqrow : ∀ c : CChar, c.subject = s → c.district = self_pk →
          (decide (c.subject = s') && decide (c.district = d)) = false := by
        intro c hcs hcd
        rcases h with h | h
        · have : ¬(c.subject = s') := by rw [hcs]; exact fun he => h he.symm
          simp [this]
        · have : ¬(c.district = d) := by rw [hcd]; exact fun he => h he.symm
          simp [this]
      cases hh : ((acc.1.filter (fun c => decide (c.subject = s) &&
          decide (c.district = self_pk))).head?) with
      | some c0 =>
          simp only []
          have hq := head_filter_true hh
          obtain ⟨hcs, hcd⟩ := Bool.and_eq_true_iff.mp hq
          exact filter_replaceCC s self_pk _ acc.1 _ hqrow
            (hqrow _ (by simpa using hcs) (by simpa using hcd))
      | none =>
          simp only []
          rw [List.filter_append]
          have : (decide ((s : Nat) = s') && decide (self_pk = d)) = false :=
            hqrow { subject := s, district := self_pk, number := 0 } rfl rfl
          simp only [List.filter_cons]
          simp only [this]
          simp

/-- The `delta_stats` fold, characterised pointwise: each subject of a
duplicate-free subject table gets its computed value updated by its
aggregate exactly when it contributes, and every other
`(subject, district)` cell of the computed table is untouched. -/
theorem delta_stats_fold (env : Env) (self_pk : Nat) (gus : List GUnit)
    (combine : Bool) :
    ∀ (subjects : List Nat), subjects.Nodup →
    ∀ (acc : List CChar × Bool),
    (∀ s ∈ subjects,
      ccNum (subjects.foldl (deltaStep env self_pk gus combine) acc).1
          s self_pk =
        (if contributes env gus s then
          (if combine then ccNum acc.1 s self_pk + aggOf env gus s
           else ccNum acc.1 s self_pk - aggOf env gus s)
         else ccNum acc.1 s self_pk)) ∧
    (∀ s' d, s' ∉ subjects ∨ contributes env gus s' = false ∨
        d ≠ self_pk →
      (subjects.foldl (deltaStep env self_pk gus combine) acc).1.filter
        (fun c => decide (c.subject = s') && decide (c.district = d)) =
      acc.1.filter
        (fun c => decide (c.subject = s') && decide (c.district = d))) := by
  intro subjects
  induction subjects with
  | nil =>
      intro _ acc
      exact ⟨fun s hs => absurd hs (List.not_mem_nil s), fun s' d _ => rfl⟩
  | cons s rest ih =>
      intro hnd acc
      rw [List.nodup_cons] at hnd
      obtain ⟨hsr, hndr⟩ := hnd
      have hstep := ih hndr (deltaStep env self_pk gus combine acc s)
      constructor
      · intro s₀ hs₀
        rw [List.foldl_cons]
        rcases List.mem_cons.mp hs₀ with rfl | hs₀
        · have hfe := hstep.2 s₀ self_pk (Or.inl hsr)
          have hcc : ccNum (rest.foldl (deltaStep env self_pk gus combine)
              (deltaStep env self_pk gus combine acc s₀)).1 s₀ self_pk =
              ccNum (deltaStep env self_pk gus combine acc s₀).1
                s₀ self_pk := by
            unfold ccNum
            rw [hfe]
          rw [hcc]
          by_cases hcon : contributes env gus s₀ = true
          · rw [if_pos hcon]
            exact deltaStep_self hcon
          · have hcon' : contributes env gus s₀ = false := by
              simpa using hcon
            rw [if_neg (by simp [hcon'])]
            rw [deltaStep_untouched hcon']
        · have hval := hstep.1 s₀ hs₀
          have hne : s₀ ≠ s := fun he => hsr (he ▸ hs₀)
          have hfe := @deltaStep_other env self_pk gus combine acc s
            s₀ self_pk (Or.inl hne)
          have hcc : ccNum (deltaStep env self_pk gus combine acc s).1
              s₀ self_pk = ccNum acc.1 s₀ self_pk := by
            unfold ccNum
            rw [hfe]
          rw [hval, hcc]
      · intro s' d h
        rw [List.foldl_cons]
        have hih : s' ∉ rest ∨ contributes env gus s' = false ∨
            d ≠ self_pk := by
          rcases h with h | h
          · exact Or.inl fun hm => h (List.mem_cons_of_mem _ hm)
          · exact Or.inr h
        rw [hstep.2 s' d hih]
        by_cases hs's : s' = s
        · rcases h with h | h | h
          · exact absurd (hs's ▸ List.mem_cons_self s rest) h
          · rw [deltaStep_untouched (hs's ▸ h)]
          · exact deltaStep_other s' d (Or.inr h)
        · exact deltaStep_other s' d (Or.inl hs's)

theorem filter_map_district (l : List CChar) (s self_pk : Nat) :
    (l.map (fun c => { c with district := self_pk })).filter
      (fun c => decide (c.subject = s) && decide (c.district = self_pk)) =
    (l.filter (fun c => decide (c.subject = s))).map
      (fun c => { c with district := self_pk }) := by
  induction l with
  | nil => rfl
  | cons c rest ih =>
      by_cases hcs : c.subject = s
      · simp [List.filter_cons, hcs, ih]
      · simp [List.filter_cons, hcs, ih]

theorem filter_subject_district (l : List CChar) (s origin : Nat) :
    ((l.filter (fun c => decide (c.district = origin))).filter
      (fun c => decide (c.subject = s))) =
    l.filter
      (fun c => decide (c.subject = s) && decide (c.district = origin)) := by
  induction l with
  | nil => rfl
  | cons c rest ih =>
      by_cases hcd : c.district = origin
      · by_cases hcs : c.subject = s
        · simp [List.filter_cons, hcd, hcs, ih]
        · simp [List.filter_cons, hcd, hcs, ih]
      · by_cases hcs : c.subject = s
        · simp [List.filter_cons, hcd, hcs, ih]
        · simp [List.filter_cons, hcd, hcs, ih]

/-- Cloning the computed characteristics onto a fresh pk makes the copy
read back exactly the origin snapshot's values. -/
theorem ccNum_clone (st : State) (self_pk origin : Nat)
    (hfresh : ∀ c ∈ st.computed, c.district ≠ self_pk) (s : Nat) :
    ccNum (clone_characteristics_from st self_pk origin).computed
        s self_pk =
      ccNum st.computed s origin := by
  unfold clone_characteristics_from ccNum
  simp only []
  rw [List.filter_append]
  have h1 : st.computed.filter (fun c => decide (c.subject = s) &&
      decide (c.district = self_pk)) = [] := by
    rw [List.filter_eq_nil_iff]
    intro c hc
    simp [hfresh c hc]
  rw [h1, List.nil_append, filter_map_district, filter_subject_district,
    List.head?_map]
  cases ((st.computed.filter (fun c => decide (c.subject = s) &&
      decide (c.district = origin))).head?) with
  | none => rfl
  | some c => rfl

theorem aggOf_of_not_contributes {env : Env} {gus : List GUnit} {s : Nat}
    (h : contributes env gus s = false) : aggOf env gus s = 0 := by
  unfold contributes at h
  simp only [] at h
  unfold aggOf
  rcases Bool.and_eq_false_iff.mp h with h | h
  · have he : (env.characteristics.filter
        (fun c => decide (c.subject = s) &&
          gus.any (fun g => decide (g.id = c.geounit)))) = [] := by
      have h2 : (env.characteristics.filter
          (fun c => decide (c.subject = s) &&
            gus.any (fun g => decide (g.id = c.geounit)))).isEmpty
          = true := by
        simpa using h
      simpa using h2
    rw [he]
    rfl
  · simpa using h

/-- C4: `delta_stats` sums the Characteristic values of the given units
per subject; when that aggregate is present and non-zero it updates (or
creates, starting from `0`) the computed row of `(district, subject)`,
adding under `combine = true` and subtracting otherwise, and the returned
flag says whether any computed row changed; subjects without a
contributing aggregate and every other district's rows are left
untouched.  Consequently, reading the computed table the way the code
does, a clone-then-delta of district B under `combine = true` yields
`B_new = B_old + aggregate` per subject, and of district A under
`combine = false` yields `A_new = A_old - aggregate`. -/
theorem C4_delta_stats_consistency (env : Env)
    (hnd : env.subjects.Nodup) :
    (∀ (self_pk : Nat) (gus : List GUnit) (combine : Bool)
        (computed : List CChar),
      (delta_stats env self_pk gus combine computed).2 =
        stats_changed env gus) ∧
    (∀ (self_pk : Nat) (gus : List GUnit) (combine : Bool)
        (computed : List CChar), ∀ s ∈ env.subjects,
      ccNum (delta_stats env self_pk gus combine computed).1 s self_pk =
        (if contributes env gus s then
          (if combine then ccNum computed s self_pk + aggOf env gus s
           else ccNum computed s self_pk - aggOf env gus s)
         else ccNum computed s self_pk)) ∧
    (∀ (self_pk : Nat) (gus : List GUnit) (combine : Bool)
        (computed : List CChar) (s d : Nat),
      s ∉ env.subjects ∨ contributes env gus s = false ∨ d ≠ self_pk →
      (delta_stats env self_pk gus combine computed).1.filter
        (fun c => decide (c.subject = s) && decide (c.district = d)) =
      computed.filter
        (fun c => decide (c.subject = s) && decide (c.district = d))) ∧
    (∀ (st : State) (Bnew Bold : Nat) (gusB : List GUnit),
      (∀ c ∈ st.computed, c.district ≠ Bnew) →
      ∀ s ∈ env.subjects,
      ccNum (delta_stats env Bnew gusB true
          (clone_characteristics_from st Bnew Bold).computed).1 s Bnew =
        ccNum st.computed s Bold + aggOf env gusB s) ∧
    (∀ (st : State) (Anew Aold : Nat) (gusA : List GUnit),
      (∀ c ∈ st.computed, c.district ≠ Anew) →
      ∀ s ∈ env.subjects,
      ccNum (delta_stats env Anew gusA false
          (clone_characteristics_from st Anew Aold).computed).1 s Anew =
        ccNum st.computed s Aold - aggOf env gusA s) := by
  refine ⟨fun self_pk gus combine computed =>
    delta_stats_snd env self_pk gus combine computed, ?_, ?_, ?_, ?_⟩
  · intro self_pk gus combine computed s hs
    rw [delta_stats_eq_fold]
    exact (delta_stats_fold env self_pk gus combine env.subjects hnd
      (computed, false)).1 s hs
  · intro self_pk gus combine computed s d h
    rw [delta_stats_eq_fold]
    exact (delta_stats_fold env self_pk gus combine env.subjects hnd
      (computed, false)).2 s d h
  · intro st Bnew Bold gusB hfresh s hs
    rw [delta_stats_eq_fold]
    have h := (delta_stats_fold env Bnew gusB true env.subjects hnd
      ((clone_characteristics_from st Bnew Bold).computed, false)).1 s hs
    rw [show ((clone_characteristics_from st Bnew Bold).computed,
        false).1 = (clone_characteristics_from st Bnew Bold).computed
        from rfl] at h
    rw [ccNum_clone st Bnew Bold hfresh s] at h
    by_cases hcon : contributes env gusB s = true
    · rw [if_pos hcon, if_pos rfl] at h
      exact h
    · have hcon' : contributes env gusB s = false := by simpa using hcon
      rw [if_neg (by simp [hcon'])] at h
      rw [aggOf_of_not_contributes hcon', add_zero]
      exact h
  · intro st Anew Aold gusA hfresh s hs
    rw [delta_stats_eq_fold]
    have h := (delta_stats_fold env Anew gusA false env.subjects hnd
      ((clone_characteristics_from st Anew Aold).computed, false)).1 s hs
    rw [show ((clone_characteristics_from st Anew Aold).computed,
        false).1 = (clone_characteristics_from st Anew Aold).computed
        from rfl] at h
    rw [ccNum_clone st Anew Aold hfresh s] at h
    by_cases hcon : contributes env gusA s = true
    · rw [if_pos hcon] at h
      simp only [Bool.false_eq_true, if_false] at h
      exact h
    · have hcon' : contributes env gusA s = false := by simpa using hcon
      rw [if_neg (by simp [hcon'])] at h
      rw [aggOf_of_not_contributes hcon', sub_zero]
      exact h

/-- A small environment and state for evaluating the statistics delta: one
subject (7) with one Characteristic row, and district snapshot 1 holding
computed value 2. -/
def envC4 : Env :=
  { demoEnv with
    subjects := [7]
    characteristics := [{ subject := 7, geounit := 10, number := 5 }] }

def stC4 : State :=
  { plan_version := 0
    districts := []
    computed := [{ subject := 7, district := 1, number := 2 }]
    next_pk := 2 }

theorem C4_delta_stats_consistency_witness :
    envC4.subjects.Nodup ∧
    ccNum (delta_stats envC4 3 [{ id := 10, geom := demoGeom }] true
        (clone_characteristics_from stC4 3 1).computed).1 7 3 =
      ccNum stC4.computed 7 1 +
        aggOf envC4 [{ id := 10, geom := demoGeom }] 7 :=
  ⟨by decide, (C4_delta_stats_consistency envC4 (by decide)).2.2.2.1
    stC4 3 1 [{ id := 10, geom := demoGeom }]
    (by
      intro c hc
      rcases List.mem_singleton.mp hc with rfl
      decide)
    7 (List.mem_cons_self _ _)⟩

/-! ### C6: geometry-engine failure handling -/

/-- A truthy polygon boundary for the containment-search runs. -/
def polyC6 : Geometry := .mk .polygon false 3785 []

/-- A containment-search environment whose difference operation always
raises: the seed level collects one unit, so the finer level reaches the
unguarded `selection.difference(union)` (models.py:309). -/
def geoEnvC6 : GeoEnv :=
  { geolevels := [1, 2]
    BASE_GEOLEVEL := 2
    units := [{ id := 10, geolevel := 1, geom := polyC6, center := polyC6 }]
    unionaggG := fun _ => some demoGeom
    intersectionG := fun a _ => .ok a
    differenceG := fun _ _ => .error ()
    unionG := fun a _ => .ok a
    simplifyG := fun g => g
    st_within := fun _ _ => false
    st_intersects := fun _ _ => false }

/-- An edit environment whose geometry-engine union always raises. -/
def envFailU : Env := { demoEnv with unionG := fun _ _ => .error () }

/-- C6, counterexample: a geometry-engine failure is *not* always recovered
as the canonical empty geometry.  In the containment search the selection
difference (models.py:309) is unguarded, so the search raises
`GEOSException`; and in the boundary edit a failing target union leaves the
target's geometry absent (`None`), not the canonical empty geometry. -/
theorem C6_failure_not_recovered :
    get_mixed_geounits geoEnvC6 [10] 1 (some polyC6) false =
      .error "GEOSException" ∧
    target_new_geom envFailU (some demoGeom) demoGeom = none ∧
    target_new_geom envFailU (some demoGeom) demoGeom ≠
      some (empty_geom demoGeom.srid) :=
  ⟨rfl, rfl, fun h => Option.noConfusion h⟩

/-- C6, amended: exactly the *guarded* operations recover locally — the
inside-remainder intersection, the outside-remainder difference and
intersection (models.py:315-333), and the non-target difference of the
boundary edit (models.py:470-473) all collapse an engine failure to the
canonical empty geometry of the operand's srid.  But the target union of
the boundary edit degrades to an *absent* geometry rather than the
canonical empty one, and the containment search's running union
(models.py:295-302) and selection difference (models.py:309) propagate the
engine exception out of the search. -/
theorem C6_failure_recovery_scope (genv : GeoEnv) (env : Env)
    (boundary selection intersects dg inc tg : Geometry)
    (gids : List Nat) (geolevel : Nat) (inside : Bool) :
    (genv.intersectionG boundary intersects = .error () →
      remainder_inside genv boundary intersects =
        empty_geom boundary.srid) ∧
    (genv.differenceG selection boundary = .error () →
      remainder_outside genv selection boundary intersects =
        empty_geom boundary.srid) ∧
    (∀ r1, genv.differenceG selection boundary = .ok r1 →
      genv.intersectionG r1 intersects = .error () →
      remainder_outside genv selection boundary intersects =
        empty_geom boundary.srid) ∧
    (env.differenceG dg inc = .error () →
      district_new_geom env dg inc = empty_geom inc.srid) ∧
    (env.unionG tg inc = .error () →
      target_new_geom env (some tg) inc = none) ∧
    (∀ (level : Nat) (rest : List Nat) (sel bnd : Option Geometry)
        (units : List GUnit),
      geolevel < level → units_union genv units = .error () →
      gmg_loop genv gids geolevel inside (level :: rest) sel bnd units =
        .error "GEOSException") ∧
    (∀ (level : Nat) (rest : List Nat) (selG : Geometry)
        (bnd : Option Geometry) (units : List GUnit) (u0 : Geometry),
      geolevel < level → units_union genv units = .ok (some u0) →
      genv.differenceG selG u0 = .error () →
      gmg_loop genv gids geolevel inside (level :: rest) (some selG) bnd
        units = .error "GEOSException") := by
  refine ⟨?_, ?_, ?_, ?_, ?_, ?_, ?_⟩
  · intro h
    unfold remainder_inside
    rw [h]
  · intro h
    unfold remainder_outside
    rw [h]
  · intro r1 h1 h2
    unfold remainder_outside
    rw [h1]
    simp only []
    rw [h2]
  · intro h
    unfold district_new_geom
    rw [h]
  · intro h
    unfold target_new_geom
    simp only []
    rw [h]
  · intro level rest sel bnd units hlt hu
    unfold gmg_loop
    rw [if_neg (Nat.ne_of_lt hlt), if_pos hlt, hu]
  · intro level rest selG bnd units u0 hlt hu hd
    unfold gmg_loop
    rw [if_neg (Nat.ne_of_lt hlt), if_pos hlt, hu]
    simp only []
    rw [hd]

/-! ### C5: district-id assignment on save -/

/-- A plan whose only district has `district_id` 5. -/
def rowC5 : District :=
  { id := 1
    district_id := 5
    name := "A"
    plan := some 1
    geom := none
    simple := none
    version := 0 }

def stC5 : State :=
  { plan_version := 0
    districts := [rowC5]
    computed := []
    next_pk := 2 }

/-- C5, the code bug: a district saved without an explicit `district_id`
carries the *field default 1* (models.py:592,
`PositiveIntegerField(default=1)`), which is truthy, so the
`max(existing)+1` assignment of `set_district_id` (models.py:779,
`if district.district_id == 0`) never fires: the saved district keeps
`district_id = 1` instead of the spec's `5 + 1 = 6`.  Only a district
explicitly saved with the falsy value `0` gets `max+1`, and only on that
path can the capacity check raise its `ValidationError`, aborting before
anything is persisted. -/
theorem C5_default_district_id_not_assigned :
    (save_district 10 stC5
        { name := "X", plan := some 1, version := 0 }).map
      (fun p => p.2.district_id) = .ok 1 ∧
    (save_district 10 stC5
        { name := "X", plan := some 1, version := 0,
          district_id := 0 }).map
      (fun p => p.2.district_id) = .ok 6 ∧
    save_district 2 stC5
        { name := "X", plan := some 1, version := 0, district_id := 0 } =
      .error
        "ValidationError: Too many districts already.  Reached Max Districts setting" :=
  ⟨rfl, rfl, rfl⟩

end Redistricting
